import Mathlib

/-!
Verification development for the `api-client` repository.

The definitions below are a shallow embedding of the TypeScript sources:
  - `AlCabinet` (expiring key-value store)            -- src/unnamed/part_001
  - `AlStopwatch` (timer wrapper)                     -- src/src/utility/al-stopwatch.ts
  - `AlLocatorMatrix` (location resolution matrix)    -- src/unnamed/part_002
  - `AlApiClient` (request execution engine)          -- src/unnamed/part_007

JavaScript objects used as dictionaries are modelled as association lists
(first-match lookup, in-place replacement on write, which reproduces JS
insertion-order iteration).  JS `undefined`-vs-value distinctions are modelled
with an explicit `JSVal` type.  Time is passed explicitly (`now`, epoch ms).
-/

namespace ApiClient

/-- Lookup of `obj[k]` in a JS object modelled as an association list:
the first binding of the key wins. -/
def jsGet {α : Type} : List (String × α) → String → Option α
| [], _ => none
| (k2, v) :: rest, k => if k2 = k then some v else jsGet rest k

/-- Assignment `obj[k] = v`: replaces the first binding of `k` in place,
or appends a new binding (JS objects iterate in insertion order). -/
def jsSet {α : Type} : List (String × α) → String → α → List (String × α)
| [], k, v => [(k, v)]
| (k2, v2) :: rest, k, v =>
    if k2 = k then (k2, v) :: rest else (k2, v2) :: jsSet rest k v

/-- Deletion `delete obj[k]`: removes every binding of `k`. -/
def jsErase {α : Type} (m : List (String × α)) (k : String) : List (String × α) :=
  m.filter (fun kv => kv.1 ≠ k)

/-- A JS value that is either `undefined`/`null` (both falsy, both treated
identically by the code we model) or a proper value. -/
inductive JSVal (V : Type) where
| undef : JSVal V
| val : V → JSVal V
deriving DecidableEq, Repr

/-- One entry of an `AlCabinet`: `expires` is an epoch-ms timestamp, `0`
meaning "never expires" (src/unnamed/part_001, `set`). -/
structure CacheEntry (V : Type) where
  expires : Nat
  value : V
deriving DecidableEq, Repr

/-- The `data` dictionary of an `AlCabinet`. -/
abbrev CabData (V : Type) := List (String × CacheEntry V)

namespace AlCabinet

/-- Storage type constant `AlCabinet.LOCAL` (in memory only). -/
def LOCAL : Nat := 1

/-- Storage type constant `AlCabinet.EPHEMERAL` (sessionStorage). -/
def EPHEMERAL : Nat := 2

/-- Storage type constant `AlCabinet.PERSISTENT` (localStorage). -/
def PERSISTENT : Nat := 3

/-- `AlCabinet.get( property, defaultValue, disableExpiration )` over the
`data` dictionary (src/unnamed/part_001 lines 115-128).  On a missing key the
source executes `return this.data[property]`, i.e. returns `undefined`
regardless of `defaultValue`; on an expired entry it deletes the entry and
returns `defaultValue`; otherwise it returns the stored value.  Returns the
result together with the (possibly mutated) data dictionary.  The
`syncronizer.again()` call in the expired branch does not touch `data` and is
modelled in the `CabWorld` machine below. -/
def get {V : Type} (data : CabData V) (property : String) (defaultValue : JSVal V)
    (disableExpiration : Bool) (now : Nat) : JSVal V × CabData V :=
  match jsGet data property with
  | none => (JSVal.undef, data)
  | some entry =>
      if disableExpiration = false ∧ 0 < entry.expires ∧ entry.expires < now then
        (defaultValue, jsErase data property)
      else
        (JSVal.val entry.value, data)

/-- `AlCabinet.delete( property )` over the `data` dictionary
(src/unnamed/part_001 lines 190-198). -/
def del {V : Type} (data : CabData V) (property : String) : CabData V :=
  match jsGet data property with
  | none => data
  | some _ => jsErase data property

/-- `AlCabinet.set( property, value, ttl )` over the `data` dictionary
(src/unnamed/part_001 lines 168-181): a `null`/`undefined` value is a delete;
otherwise the entry expires at `now + ttl*1000` (ttl in seconds; 0 = never). -/
def set {V : Type} (data : CabData V) (property : String) (value : JSVal V)
    (ttl : Nat) (now : Nat) : CabData V :=
  match value with
  | JSVal.undef => del data property
  | JSVal.val v =>
      let expirationTS := if ttl = 0 then 0 else now + ttl * 1000
      jsSet data property { expires := expirationTS, value := v }

/-- `AlCabinet.exists( property )` (src/unnamed/part_001 lines 137-139). -/
def existsProp {V : Type} (data : CabData V) (property : String) : Bool :=
  (jsGet data property).isSome

end AlCabinet

/-- An `AlCabinet` instance as constructed by the class constructor:
`hasSyncronizer` records whether the constructor created the debounced
synchronizer stopwatch (it does so iff `type !== AlCabinet.LOCAL`,
src/unnamed/part_001 lines 24-31). -/
structure AlCabinetObj (V : Type) where
  name : String
  data : CabData V
  type : Nat
  hasSyncronizer : Bool
deriving DecidableEq, Repr

/-- The `AlCabinet` constructor (src/unnamed/part_001 lines 24-31). -/
def alCabinetNew {V : Type} (name : String) (data : CabData V) (type : Nat) :
    AlCabinetObj V :=
  { name := name, data := data, type := type,
    hasSyncronizer := decide (type ≠ AlCabinet.LOCAL) }

/-- `AlCabinet.local( name )` (src/unnamed/part_001 lines 96-103): despite
its name and doc comment, it constructs the cabinet with
`AlCabinet.PERSISTENT`.  (The `openCabinets` registry short-circuit for an
already-open name is not modelled; this is the first-open path.) -/
def alCabinetLocal {V : Type} (name : String) : AlCabinetObj V :=
  alCabinetNew name [] AlCabinet.PERSISTENT

/-- `AlCabinet.ephemeral( name )` (src/unnamed/part_001 lines 69-87): also
constructs with `AlCabinet.PERSISTENT`; initial data is deserialized from
sessionStorage when present (`stored`). -/
def alCabinetEphemeral {V : Type} (name : String) (stored : Option (CabData V)) :
    AlCabinetObj V :=
  let cabinet := alCabinetNew name ([] : CabData V) AlCabinet.PERSISTENT
  { cabinet with data := match stored with | some d => d | none => cabinet.data }

/-- The two browser storage facilities `synchronize` can flush to. -/
inductive StorageKind where
| localStorage : StorageKind
| sessionStorage : StorageKind
deriving DecidableEq, Repr

/-- Which backing store `AlCabinet.synchronize` writes to
(src/unnamed/part_001 lines 236-241): localStorage iff the cabinet type is
`PERSISTENT`, sessionStorage iff `EPHEMERAL`, nothing otherwise. -/
def synchronizeTarget {V : Type} (c : AlCabinetObj V) : Option StorageKind :=
  if c.type = AlCabinet.PERSISTENT then some StorageKind.localStorage
  else if c.type = AlCabinet.EPHEMERAL then some StorageKind.sessionStorage
  else none

/-! ### Cabinet synchronization machine (AlStopwatch + persistent AlCabinet)

`AlStopwatch.again` (src/src/utility/al-stopwatch.ts lines 85-90) schedules a
`setTimeout` only when no timer is already pending; `cancel` clears a pending
timer; `tick` clears the handle and runs the callback.  The machine below
tracks, in `queue`, the identities of all `setTimeout` callbacks created for
the cabinet's synchronizer and not yet fired or cleared, so "how many flushes
are pending" is observable. -/

/-- State of one `AlStopwatch` (fields `timer` and `interval`). -/
structure StopwatchState where
  timer : Option Nat
  interval : Nat
deriving DecidableEq, Repr

/-- A persistent `AlCabinet` together with its synchronizer stopwatch and the
set of pending timer callbacks. `flushes` counts executed `synchronize` runs. -/
structure CabWorld (V : Type) where
  data : CabData V
  sw : StopwatchState
  queue : List Nat
  nextTimer : Nat
  flushes : Nat
deriving DecidableEq, Repr

/-- `AlStopwatch.again()` as called by `AlCabinet.set`/`delete`/`get` (delay 0):
if a timer is already pending it does nothing; otherwise it schedules a new
`setTimeout` callback (src/src/utility/al-stopwatch.ts lines 85-90). -/
def swAgain {V : Type} (w : CabWorld V) : CabWorld V :=
  match w.sw.timer with
  | some _ => w
  | none =>
      { w with sw := { timer := some w.nextTimer, interval := 0 },
               queue := w.queue ++ [w.nextTimer],
               nextTimer := w.nextTimer + 1 }

/-- `AlStopwatch.cancel()` (src/src/utility/al-stopwatch.ts lines 75-80). -/
def swCancel {V : Type} (w : CabWorld V) : CabWorld V :=
  match w.sw.timer with
  | none => w
  | some id =>
      { w with sw := { timer := none, interval := w.sw.interval },
               queue := w.queue.filter (fun t => t != id) }

/-- `AlCabinet.set` on a persistent cabinet (src/unnamed/part_001 lines
168-181): null/undefined deletes; otherwise the entry is written and the
synchronizer is poked with `again()`. -/
def worldSet {V : Type} (w : CabWorld V) (k : String) (v : JSVal V) (ttl : Nat)
    (now : Nat) : CabWorld V :=
  match v with
  | JSVal.undef =>
      match jsGet w.data k with
      | none => w
      | some _ => swAgain { w with data := jsErase w.data k }
  | JSVal.val _ => swAgain { w with data := AlCabinet.set w.data k v ttl now }

/-- `AlCabinet.delete` on a persistent cabinet (src/unnamed/part_001 lines
190-198): deletes the key if present and pokes the synchronizer. -/
def worldDelete {V : Type} (w : CabWorld V) (k : String) : CabWorld V :=
  match jsGet w.data k with
  | none => w
  | some _ => swAgain { w with data := jsErase w.data k }

/-- `AlCabinet.get` (default arguments) on a persistent cabinet: an entry
found expired at read time is deleted and the synchronizer poked
(src/unnamed/part_001 lines 115-128). -/
def worldGet {V : Type} (w : CabWorld V) (k : String) (now : Nat) : CabWorld V :=
  match jsGet w.data k with
  | none => w
  | some e =>
      if 0 < e.expires ∧ e.expires < now then
        swAgain { w with data := jsErase w.data k }
      else w

/-- The pending `setTimeout` callback firing: `AlStopwatch.tick` clears the
handle (interval 0) and runs `AlCabinet.synchronize`, which purges expired
entries, flushes to storage (counted in `flushes`) and finally calls
`syncronizer.cancel()` (a no-op at that point, the handle being already
cleared) — src/src/utility/al-stopwatch.ts lines 65-70 and
src/unnamed/part_001 lines 219-255. -/
def worldTick {V : Type} (w : CabWorld V) (now : Nat) : CabWorld V :=
  match w.sw.timer with
  | none => w
  | some id =>
      let w1 : CabWorld V :=
        { w with sw := { timer := none, interval := w.sw.interval },
                 queue := w.queue.filter (fun t => t != id) }
      let purged := w1.data.filter
        (fun kv => ! (decide (0 < kv.2.expires) && decide (kv.2.expires < now)))
      swCancel { w1 with data := purged, flushes := w1.flushes + 1 }

/-- Operations that can hit a persistent cabinet. -/
inductive CabOp (V : Type) where
| setOp (k : String) (v : JSVal V) (ttl : Nat) (now : Nat)
| delOp (k : String)
| getOp (k : String) (now : Nat)
| tickOp (now : Nat)

/-- Run one cabinet operation. -/
def runCabOp {V : Type} (w : CabWorld V) : CabOp V → CabWorld V
| CabOp.setOp k v ttl now => worldSet w k v ttl now
| CabOp.delOp k => worldDelete w k
| CabOp.getOp k now => worldGet w k now
| CabOp.tickOp now => worldTick w now

/-- Run a sequence of cabinet operations. -/
def runCabOps {V : Type} (w : CabWorld V) : List (CabOp V) → CabWorld V
| [] => w
| op :: rest => runCabOps (runCabOp w op) rest

/-- The pending timers of the synchronizer are exactly what the stopwatch
handle says: none, or the single one it holds. -/
def SyncInv {V : Type} (w : CabWorld V) : Prop :=
  match w.sw.timer with
  | none => w.queue = []
  | some id => w.queue = [id]

/-- The freshly opened cabinet world. -/
def initCabWorld (V : Type) : CabWorld V :=
  { data := [], sw := { timer := none, interval := 0 }, queue := [],
    nextTimer := 0, flushes := 0 }

/-! ### Request URL construction (`calculateRequestURL`) -/

/-- The `version` field of a request descriptor: a string or a JS number
(src/unnamed/part_007 line 30). -/
inductive VersionVal where
| str (s : String)
| num (n : Int)
deriving DecidableEq, Repr

/-- The fields of `APIRequestParams` consumed by `calculateRequestURL`. -/
structure URLParams where
  service_stack : Option String
  service_name : Option String
  version : Option VersionVal
  account_id : Option String
  path : Option String
  noEndpointsResolution : Bool
deriving DecidableEq, Repr

/-- `AlLocation.InsightAPI` (src/src/utility/al-locator-service.ts line 37). -/
def AlLocationInsightAPI : String := "insight:api"

/-- JS truthiness of an optional string field: present and non-empty. -/
def strTruthy : Option String → Bool
| some s => s != ""
| none => false

/-- The check `endpointHost.startsWith( "http" )` from `getServiceEndpoints`,
expressed on the character list of the string. -/
def strStartsWith (s pre : String) : Bool :=
  pre.data.isPrefixOf s.data

/-- The check `params.path[0] === '/'` from `calculateRequestURL`: the first
character of the string, if any. -/
def strHead (s : String) : Option Char :=
  s.data.head?

/-- Host translation performed by `getServiceEndpoints` on the discovery
response (src/unnamed/part_007 lines 521-524): hosts not starting with
"http" get an "https://" prefix. -/
def endpointsTranslate (raw : List (String × String)) : List (String × String) :=
  raw.map (fun kv => (kv.1, if strStartsWith kv.2 "http" then kv.2 else "https://" ++ kv.2))

/-- Base-URL selection of `AlApiClient.calculateRequestURL`
(src/unnamed/part_007 lines 586-597): the discovery host when the request
names an InsightAPI service and endpoints resolution is enabled, falling back
to `AlLocatorService.resolveURL( params.service_stack )` — passed here as the
abstract `resolveURL` — when discovery has no truthy entry for the service. -/
def resolveServiceBaseURL (serviceCollection : List (String × String))
    (resolveURL : Option String → String) (p : URLParams) : String :=
  let fromEndpoints : Option String :=
    if strTruthy p.service_name = true ∧ p.service_stack = some AlLocationInsightAPI
        ∧ p.noEndpointsResolution = false then
      match p.service_name with
      | some s => jsGet serviceCollection s
      | none => none
    else none
  match fromEndpoints with
  | some host => if host = "" then resolveURL p.service_stack else host
  | none => resolveURL p.service_stack

/-- `AlApiClient.calculateRequestURL` (src/unnamed/part_007 lines 585-615):
appends `/serviceName`, the version (non-empty string literally, positive
number as `v<N>`), a truthy non-"0" account id, and the path (leading slash
not duplicated) to the resolved base. -/
def calculateRequestURL (serviceCollection : List (String × String))
    (resolveURL : Option String → String) (p : URLParams) : String :=
  let fullPath0 := resolveServiceBaseURL serviceCollection resolveURL p
  let fullPath1 :=
    match p.service_name with
    | some s => if s = "" then fullPath0 else fullPath0 ++ ("/" ++ s)
    | none => fullPath0
  let fullPath2 :=
    match p.version with
    | some (VersionVal.str v) =>
        if 0 < v.length then fullPath1 ++ ("/" ++ v) else fullPath1
    | some (VersionVal.num n) =>
        if 0 < n then fullPath1 ++ ("/v" ++ toString n) else fullPath1
    | none => fullPath1
  let fullPath3 :=
    match p.account_id with
    | some a => if a = "" ∨ a = "0" then fullPath2 else fullPath2 ++ ("/" ++ a)
    | none => fullPath2
  match p.path with
  | some pa =>
      if 0 < pa.length then
        fullPath3 ++ ((if strHead pa = some '/' then "" else "/") ++ pa)
      else fullPath3
  | none => fullPath3

/-- Modelled from the spec (claim C5 wording), for comparison only: the URL
is the resolved host, then `/serviceName`, then the version (a string used
literally, a positive integer N as `vN`), then the account id when truthy and
not "0", then the path without duplicating a leading slash, in that order. -/
def specRequestURL (host : String) (serviceName : String) (version : Option VersionVal)
    (accountId : Option String) (path : Option String) : String :=
  host ++ ("/" ++ serviceName)
    ++ (match version with
        | some (VersionVal.str v) => "/" ++ v
        | some (VersionVal.num n) => if 0 < n then "/v" ++ toString n else ""
        | none => "")
    ++ (match accountId with
        | some a => if a = "" ∨ a = "0" then "" else "/" ++ a
        | none => "")
    ++ (match path with
        | some pa => (if strHead pa = some '/' then "" else "/") ++ pa
        | none => "")

/-! ### Retry machinery (`axiosRequest` / `isRetryableError`) -/

/-- One transport attempt outcome as seen by the axios instance: a response
with a status and payload, or a network-level failure (axios rejects with an
error object carrying no usable status). -/
inductive AxAttempt where
| response (status : Nat) (data : Nat)
| netfail
deriving DecidableEq, Repr

/-- Settled outcome of one attempt, or of the whole request. -/
inductive AxOutcome where
| resolved (status : Nat) (data : Nat)
| rejected (error : Option Nat)
deriving DecidableEq, Repr

/-- The engine's interceptors applied to one attempt: `validateStatus` lets
every status through and `onRequestResponse` (src/unnamed/part_007 lines
681-686) rejects statuses outside [200,400) with the response itself; a
network failure rejects with a status-less error object. -/
def interceptAttempt : AxAttempt → AxOutcome
| AxAttempt.response s d =>
    if 200 ≤ s ∧ s < 400 then AxOutcome.resolved s d else AxOutcome.rejected (some s)
| AxAttempt.netfail => AxOutcome.rejected none

/-- The retry-relevant request configuration fields. -/
structure RetryConfig where
  retry_count : Option Nat
  retry_interval : Option Nat
deriving DecidableEq, Repr

/-- `AlApiClient.isRetryableError( error, config, attemptIndex )`
(src/unnamed/part_007 lines 762-777).  The `error` argument is `none` for the
literal `null` passed by the outer catch handlers, `some none` for an error
object without a numeric status (network failure, `error.status` undefined),
and `some (some s)` for a response with status `s`. -/
def isRetryableError (error : Option (Option Nat)) (cfg : RetryConfig)
    (attemptIndex : Nat) : Bool :=
  match cfg.retry_count with
  | none => false
  | some rc =>
      if rc ≤ attemptIndex then false
      else
        match error with
        | none => true
        | some none => false
        | some (some status) =>
            decide (status = 0) || decide (300 ≤ status ∧ status ≤ 399)
              || decide (500 ≤ status ∧ status ≤ 599)

/-- `AlApiClient.axiosRequest( config, attemptIndex )` (src/unnamed/part_007
lines 715-757), driven by an oracle list of attempt outcomes (one consumed
per transport call) and a fuel bound (kept strictly larger than the oracle in
every theorem, so fuel exhaustion never decides a result).  Returns the
settled outcome — `none` when the oracle or fuel ran out with the request
still pending — and the unconsumed oracle suffix.  The control flow mirrors
the source: the inner axios error handler retries when
`isRetryableError( error, config, attemptIndex )` holds, incrementing the
local `attemptIndex` and recursing with `attemptIndex + 1` (hence `i + 2`);
the outer `.catch` fires when that chain rejected, consults
`isRetryableError( null, config, attemptIndex )` with the local variable as
left by the inner handler (`i + 1` after an inner retry, `i` otherwise) and
recurses the same way.  The pseudo-random `breaker` query parameter added
before each retry only alters the outgoing URL and is not modelled. -/
def axiosRequest (cfg : RetryConfig) :
    Nat → Nat → List AxAttempt → Option AxOutcome × List AxAttempt
| 0, _, l => (none, l)
| _ + 1, _, [] => (none, [])
| fuel + 1, i, o :: rest =>
    match interceptAttempt o with
    | AxOutcome.resolved s d => (some (AxOutcome.resolved s d), rest)
    | AxOutcome.rejected e =>
        if isRetryableError (some e) cfg i then
          match axiosRequest cfg fuel (i + 2) rest with
          | (none, rem) => (none, rem)
          | (some (AxOutcome.resolved s d), rem) => (some (AxOutcome.resolved s d), rem)
          | (some (AxOutcome.rejected ex), rem) =>
              if isRetryableError none cfg (i + 1) then
                axiosRequest cfg fuel (i + 3) rem
              else (some (AxOutcome.rejected ex), rem)
        else
          if isRetryableError none cfg i then
            axiosRequest cfg fuel (i + 2) rest
          else (some (AxOutcome.rejected e), rest)

/-! ### GET response caching, sequential view -/

/-- The `ttl` field of a request: a JS number or boolean
(src/unnamed/part_007 line 40). -/
inductive TTLValue where
| num (n : Nat)
| bool (b : Bool)
deriving DecidableEq, Repr

/-- Fields of a normalized GET request consumed by the caching logic of
`AlApiClient.get`; `url` is the resolved `normalized.url`, `queryParams` the
(already URI-encoded) `config.params` entries in order. -/
structure GetConfig where
  url : String
  queryParams : List (String × String)
  ttl : Option TTLValue
  cacheKey : Option String
  disableCache : Bool
deriving DecidableEq, Repr

/-- The one-line query stringify of `get` (src/unnamed/part_007 line 147):
`p=v` pairs joined with `&`. -/
def buildQueryString : List (String × String) → String
| [] => ""
| [(p, v)] => p ++ "=" ++ v
| (p, v) :: rest => p ++ "=" ++ v ++ "&" ++ buildQueryString rest

/-- The `fullUrl` of a GET (src/unnamed/part_007 line 149). -/
def fullUrlOf (cfg : GetConfig) : String :=
  let qp := buildQueryString cfg.queryParams
  cfg.url ++ (if 0 < qp.length then "?" ++ qp else "")

/-- The cache key of a GET: `normalized.cacheKey || fullUrl`
(src/unnamed/part_007 line 153). -/
def cacheKeyOf (cfg : GetConfig) : String :=
  match cfg.cacheKey with
  | some k => k
  | none => fullUrlOf cfg

/-- The `cacheTTL` computation (src/unnamed/part_007 lines 152-158): a
positive numeric ttl is used as is, `true` means 60000 ms, anything else 0. -/
def effectiveCacheTTL : Option TTLValue → Nat
| some (TTLValue.num n) => if 0 < n then n else 0
| some (TTLValue.bool b) => if b then 60000 else 0
| none => 0

/-- `AlApiClient.setCachedValue` (src/unnamed/part_007 lines 796-801): a ttl
below 1000 ms is silently not cached at all; otherwise the value is stored
via `AlCabinet.set` with `floor(ttl/1000)` seconds. -/
def setCachedValue (st : CabData Nat) (key : String) (data : Nat) (ttl : Nat)
    (now : Nat) : CabData Nat :=
  if ttl < 1000 then st
  else AlCabinet.set st key (JSVal.val data) (ttl / 1000) now

/-- `AlApiClient.getCachedValue` (src/unnamed/part_007 lines 792-794)
composed with the truthiness test `if ( cachedValue )` of `get` (line 161):
a falsy payload (modelled by 0) is treated as a miss. -/
def getCachedTruthy (st : CabData Nat) (key : String) (now : Nat) :
    Option Nat × CabData Nat :=
  match AlCabinet.get st key JSVal.undef false now with
  | (JSVal.val v, st2) => (if v ≠ 0 then some v else none, st2)
  | (JSVal.undef, st2) => (none, st2)

/-- One sequential call of `AlApiClient.get` (src/unnamed/part_007 lines
142-209), from a state with no in-flight request for the key (the
`transientReadCache` branch, unreachable in a sequential call sequence, is
modelled by the engine machine below).  Returns the payload handed to the
caller, the resulting TTL store, and the number of network calls performed
(0 or 1); `responseData` is the payload the network would return.  Note that
the source reads the TTL store at `fullUrl` (line 160) but writes it at
`cacheKey` (line 181). -/
def getOnce (cfg : GetConfig) (st : CabData Nat) (responseData : Nat)
    (now : Nat) : Nat × CabData Nat × Nat :=
  let fullUrl := fullUrlOf cfg
  let cacheTTL := effectiveCacheTTL cfg.ttl
  let afterRead :=
    if 0 < cacheTTL ∧ cfg.disableCache = false then getCachedTruthy st fullUrl now
    else (none, st)
  match afterRead with
  | (some v, st2) => (v, st2, 0)
  | (none, st2) =>
      let st3 :=
        if 0 < cacheTTL ∧ cfg.disableCache = false then
          setCachedValue st2 (cacheKeyOf cfg) responseData cacheTTL now
        else st2
      (responseData, st3, 1)

/-! ### Mutating calls (post/put/form/delete) -/

/-- Engine-visible effects of a mutating call, in execution order. -/
inductive EngineAction where
| invalidate (key : String)
| httpRequest (method : String) (url : String)
deriving DecidableEq, Repr

/-- Fields of a normalized mutating request relevant to cache invalidation. -/
structure MutateConfig where
  url : String
  disableCache : Bool
deriving DecidableEq, Repr

/-- `AlApiClient.post` (src/unnamed/part_007 lines 223-231): deletes the
cached entry for the resolved URL only when `disableCache` is not set, then
issues the request. -/
def postOp (cfg : MutateConfig) (st : CabData Nat) :
    CabData Nat × List EngineAction :=
  if cfg.disableCache then (st, [EngineAction.httpRequest "POST" cfg.url])
  else (AlCabinet.del st cfg.url,
        [EngineAction.invalidate cfg.url, EngineAction.httpRequest "POST" cfg.url])

/-- `AlApiClient.put` (src/unnamed/part_007 lines 321-329): same cache guard
as `post`. -/
def putOp (cfg : MutateConfig) (st : CabData Nat) :
    CabData Nat × List EngineAction :=
  if cfg.disableCache then (st, [EngineAction.httpRequest "PUT" cfg.url])
  else (AlCabinet.del st cfg.url,
        [EngineAction.invalidate cfg.url, EngineAction.httpRequest "PUT" cfg.url])

/-- `AlApiClient.form` (src/unnamed/part_007 lines 305-316): POST with a
multipart content type (headers not modelled), same cache guard as `post`. -/
def formOp (cfg : MutateConfig) (st : CabData Nat) :
    CabData Nat × List EngineAction :=
  if cfg.disableCache then (st, [EngineAction.httpRequest "POST" cfg.url])
  else (AlCabinet.del st cfg.url,
        [EngineAction.invalidate cfg.url, EngineAction.httpRequest "POST" cfg.url])

/-- `AlApiClient.delete` (src/unnamed/part_007 lines 343-349): the cached
entry for the resolved URL is deleted unconditionally. -/
def deleteOp (cfg : MutateConfig) (st : CabData Nat) :
    CabData Nat × List EngineAction :=
  (AlCabinet.del st cfg.url,
   [EngineAction.invalidate cfg.url, EngineAction.httpRequest "DELETE" cfg.url])

/-! ### Location matrix (`AlLocatorMatrix`, src/unnamed/part_002)

Context and descriptor string fields are modelled as `Option String` where
`none` stands for an absent (or empty, hence falsy) field; JS truthiness
checks on them are `strTruthy`. -/

/-- The descriptor fields consumed by `getNode`/`saveNode`/`setContext`
(src/unnamed/part_002 lines 98-112; URI-resolution and display fields not
used by these methods are omitted). -/
structure AlLocationDescriptor where
  locTypeId : String
  environment : Option String
  residency : Option String
  locationId : Option String
  uri : String
deriving DecidableEq, Repr

/-- A location context (src/unnamed/part_002 lines 59-64). -/
structure AlLocationContext where
  environment : Option String
  residency : Option String
  location : Option String
  accessible : Option (List String)
deriving DecidableEq, Repr

/-- The mutable state of `AlLocatorMatrix`: `nodes` is the per-id fast-path
cache, `nodeMap` the dictionary of specificity-keyed descriptors, and the
remaining fields mirror `_environment`, `_residency`, `_location`,
`_accessible`. -/
structure AlLocatorMatrix where
  nodes : List (String × AlLocationDescriptor)
  nodeMap : List (String × AlLocationDescriptor)
  environment : String
  residency : String
  location : Option String
  accessible : Option (List String)
deriving DecidableEq, Repr

/-- A fresh matrix with the default context (src/unnamed/part_002 lines
116-125). -/
def initialMatrix : AlLocatorMatrix :=
  { nodes := [], nodeMap := [], environment := "production", residency := "US",
    location := none, accessible := none }

/-- `AlLocatorMatrix.saveNode` (src/unnamed/part_002 lines 327-338): stores
the node under up to four specificity keys; it does not touch the `nodes`
fast-path cache. -/
def saveNode (m : AlLocatorMatrix) (node : AlLocationDescriptor) : AlLocatorMatrix :=
  let m1 :=
    if strTruthy node.environment = true ∧ strTruthy node.residency = true then
      let e := node.environment.getD ""
      let r := node.residency.getD ""
      let map1 :=
        if strTruthy node.locationId = true then
          jsSet m.nodeMap
            (node.locTypeId ++ "-" ++ e ++ "-" ++ r ++ "-" ++ node.locationId.getD "")
            node
        else m.nodeMap
      { m with nodeMap := jsSet map1 (node.locTypeId ++ "-" ++ e ++ "-" ++ r) node }
    else m
  let m2 :=
    if strTruthy node.environment = true then
      let envKey := node.locTypeId ++ "-" ++ node.environment.getD "" ++ "-*"
      { m1 with nodeMap := jsSet m1.nodeMap envKey node }
    else m1
  { m2 with nodeMap := jsSet m2.nodeMap (node.locTypeId ++ "-*-*") node }

/-- The graded key lookups of `getNode` (src/unnamed/part_002 lines 258-288):
exact (id, env, residency, location), then any accessible-location variant
(the loop keeps the last hit and skips the current location), then
(id, env, residency), then (id, env, *), then (id, *, *). -/
def lookupNode (m : AlLocatorMatrix) (locTypeId : String)
    (context : Option AlLocationContext) : Option AlLocationDescriptor :=
  let environment := match context with
    | some c => match c.environment with | some e => e | none => m.environment
    | none => m.environment
  let residency := match context with
    | some c => match c.residency with | some r => r | none => m.residency
    | none => m.residency
  let location := match context with
    | some c => match c.location with | some l => some l | none => m.location
    | none => m.location
  let accessible := match context with
    | some c => match c.accessible with | some a => some a | none => m.accessible
    | none => m.accessible
  let n0 : Option AlLocationDescriptor :=
    match location with
    | some loc =>
        jsGet m.nodeMap
          (locTypeId ++ "-" ++ environment ++ "-" ++ residency ++ "-" ++ loc)
    | none => none
  let n1 : Option AlLocationDescriptor :=
    match n0 with
    | some x => some x
    | none =>
        match accessible with
        | some acc =>
            if acc.length ≠ 0 then
              acc.foldl (fun cur locationId =>
                if some locationId ≠ location then
                  match jsGet m.nodeMap
                      (locTypeId ++ "-" ++ environment ++ "-" ++ residency
                        ++ "-" ++ locationId) with
                  | some x => some x
                  | none => cur
                else cur) none
            else none
        | none => none
  let n2 : Option AlLocationDescriptor :=
    match n1 with
    | some x => some x
    | none =>
        if environment ≠ "" ∧ residency ≠ "" then
          jsGet m.nodeMap (locTypeId ++ "-" ++ environment ++ "-" ++ residency)
        else none
  let n3 : Option AlLocationDescriptor :=
    match n2 with
    | some x => some x
    | none =>
        if environment ≠ "" then
          jsGet m.nodeMap (locTypeId ++ "-" ++ environment ++ "-*")
        else none
  match n3 with
  | some x => some x
  | none => jsGet m.nodeMap (locTypeId ++ "-*-*")

/-- `AlLocatorMatrix.getNode( locTypeId, context )` (src/unnamed/part_002
lines 254-295): the per-id cache short-circuits only ambient (no-context)
lookups; the result is stored back into the cache only for ambient lookups.
Returns the node and the possibly updated matrix. -/
def getNode (m : AlLocatorMatrix) (locTypeId : String)
    (context : Option AlLocationContext) :
    Option AlLocationDescriptor × AlLocatorMatrix :=
  if (jsGet m.nodes locTypeId).isSome = true ∧ context = none then
    (jsGet m.nodes locTypeId, m)
  else
    let node := lookupNode m locTypeId context
    match node, context with
    | some x, none => (some x, { m with nodes := jsSet m.nodes locTypeId x })
    | _, _ => (node, m)

/-- `findOne( n => n.locationId === location )` as used by `setContext`
(src/unnamed/part_002 lines 195-215 and 225): the first matching node in
`_nodeMap` iteration (insertion) order. -/
def findOneByLocation (map : List (String × AlLocationDescriptor)) (loc : String) :
    Option AlLocationDescriptor :=
  match map.find? (fun kv => kv.2.locationId == some loc) with
  | some kv => some kv.2
  | none => none

/-- `AlLocatorMatrix.setContext` (src/unnamed/part_002 lines 220-233):
flushes the per-id lookup cache, merges location and (non-empty) accessible
lists, adopts the bound location's residency when one is set, then merges
environment and residency. -/
def setContext (m : AlLocatorMatrix) (context : Option AlLocationContext) :
    AlLocatorMatrix :=
  let m0 := { m with nodes := ([] : List (String × AlLocationDescriptor)) }
  let location := match context with
    | some c => match c.location with | some l => some l | none => m0.location
    | none => m0.location
  let accessible := match context with
    | some c =>
        match c.accessible with
        | some a => if a.length ≠ 0 then some a else m0.accessible
        | none => m0.accessible
    | none => m0.accessible
  let residency0 :=
    match location with
    | some loc =>
        match findOneByLocation m0.nodeMap loc with
        | some n =>
            match n.residency with
            | some r => if r ≠ "" then r else m0.residency
            | none => m0.residency
        | none => m0.residency
    | none => m0.residency
  let environment := match context with
    | some c => match c.environment with | some e => e | none => m0.environment
    | none => m0.environment
  let residency := match context with
    | some c => match c.residency with | some r => r | none => residency0
    | none => residency0
  { m0 with location := location, accessible := accessible,
            environment := environment, residency := residency }

/-! ### GET in-flight de-duplication machine

Models the interleaving semantics of concurrent `AlApiClient.get` calls
(src/unnamed/part_007 lines 142-209).  Execution is cooperative: each step is
one synchronous segment between await points.  The segment from the TTL-cache
check through the registration of a new in-flight request (lines 159-176)
contains no `await`, so it is a single step; network completion, the owner's
resumption (with its `finally` cleanup of `transientReadCache`, line 207) and
each attached caller's resumption are separate steps.  The TTL store is
abstracted to a key-to-payload dictionary: entry expiry plays no role in the
de-duplication invariant, while the source's asymmetry is kept (reads at
`fullUrl` with the `if (cachedValue)` truthiness test, writes at `cacheKey`
through the `setCachedValue` 1000 ms floor). -/

/-- Status of one network request issued by `axiosRequest`. -/
inductive ReqStatus where
| pending
| resolvedR (payload : Nat)
| failedR
deriving DecidableEq, Repr

/-- One network request: its id, the cache key under which its owner
registered it in `transientReadCache`, and its status. -/
structure NetRequest where
  rid : Nat
  key : String
  status : ReqStatus
deriving DecidableEq, Repr

/-- Phase of one `get` coroutine.  `finishedNet` records which request
produced the payload, so payload sharing is observable. -/
inductive GetPhase where
| ready
| awaitingOwn (rid : Nat)
| awaitingShared (rid : Nat)
| finishedCache (v : Nat)
| finishedNet (rid : Nat) (v : Nat)
| failedNet (rid : Nat)
deriving DecidableEq, Repr

/-- One `get` call: its full URL, cache key (`cacheKey || fullUrl`),
effective cache ttl, `disableCache` flag and current phase. -/
structure GetCall where
  fullUrl : String
  cacheKey : String
  cacheTTL : Nat
  disableCache : Bool
  phase : GetPhase
deriving DecidableEq, Repr

/-- Whether the call consults/populates the TTL cache
(`cacheTTL && !normalized.disableCache`). -/
def GetCall.useCache (c : GetCall) : Bool :=
  decide (0 < c.cacheTTL) && !c.disableCache

/-- The engine state shared by all `get` coroutines: the call list, the
`transientReadCache` in-flight map, the issued network requests, the TTL
store and the id supply. -/
structure EngineState where
  calls : List GetCall
  inflight : List (String × Nat)
  requests : List NetRequest
  storage : List (String × Nat)
  nextReq : Nat
deriving DecidableEq, Repr

/-- The truthy TTL-cache read of `get` (lines 159-165); the source reads at
`fullUrl`. -/
def cacheHit (s : EngineState) (c : GetCall) : Option Nat :=
  if c.useCache = true then
    match jsGet s.storage c.fullUrl with
    | some v => if v ≠ 0 then some v else none
    | none => none
  else none

/-- Replace the phase of call `i`. -/
def setPhase : List GetCall → Nat → GetPhase → List GetCall
| [], _, _ => []
| c :: rest, 0, p => { c with phase := p } :: rest
| c :: rest, i + 1, p => c :: setPhase rest i p

/-- Find the request with the given id. -/
def findReq (s : EngineState) (rid : Nat) : Option NetRequest :=
  s.requests.find? (fun r => r.rid == rid)

/-- Settle the request with the given id. -/
def markReq (reqs : List NetRequest) (rid : Nat) (st : ReqStatus) : List NetRequest :=
  reqs.map (fun r => if r.rid = rid then { r with status := st } else r)

/-- One interleaving step of the engine.  `check*` are the three exits of the
synchronous check-and-register segment of `get` (lines 151-176); `net*` is
the transport settling a request; `owner*` resumes the caller that issued the
request (caching on success, and deleting the in-flight entry in `finally`
either way); `shared*` resumes a caller that attached to the stored promise
(lines 167-171; it touches neither map nor storage). -/
inductive EngineStep : EngineState → EngineState → Prop where
| checkCacheHit (s : EngineState) (i : Nat) (c : GetCall) (v : Nat) :
    s.calls.get? i = some c → c.phase = GetPhase.ready →
    cacheHit s c = some v →
    EngineStep s { s with calls := setPhase s.calls i (GetPhase.finishedCache v) }
| checkAttach (s : EngineState) (i : Nat) (c : GetCall) (r : Nat) :
    s.calls.get? i = some c → c.phase = GetPhase.ready →
    cacheHit s c = none → jsGet s.inflight c.cacheKey = some r →
    EngineStep s { s with calls := setPhase s.calls i (GetPhase.awaitingShared r) }
| checkRegister (s : EngineState) (i : Nat) (c : GetCall) :
    s.calls.get? i = some c → c.phase = GetPhase.ready →
    cacheHit s c = none → jsGet s.inflight c.cacheKey = none →
    EngineStep s
      { s with
        calls := setPhase s.calls i (GetPhase.awaitingOwn s.nextReq),
        inflight := jsSet s.inflight c.cacheKey s.nextReq,
        requests := s.requests
          ++ [{ rid := s.nextReq, key := c.cacheKey, status := ReqStatus.pending }],
        nextReq := s.nextReq + 1 }
| netResolve (s : EngineState) (r : NetRequest) (p : Nat) :
    r ∈ s.requests → r.status = ReqStatus.pending →
    EngineStep s { s with requests := markReq s.requests r.rid (ReqStatus.resolvedR p) }
| netFail (s : EngineState) (r : NetRequest) :
    r ∈ s.requests → r.status = ReqStatus.pending →
    EngineStep s { s with requests := markReq s.requests r.rid ReqStatus.failedR }
| ownerResolve (s : EngineState) (i : Nat) (c : GetCall) (rid p : Nat)
    (r : NetRequest) :
    s.calls.get? i = some c → c.phase = GetPhase.awaitingOwn rid →
    findReq s rid = some r → r.status = ReqStatus.resolvedR p →
    EngineStep s
      { s with
        calls := setPhase s.calls i (GetPhase.finishedNet rid p),
        inflight := jsErase s.inflight c.cacheKey,
        storage := if c.useCache = true ∧ 1000 ≤ c.cacheTTL then
            jsSet s.storage c.cacheKey p
          else s.storage }
| ownerFail (s : EngineState) (i : Nat) (c : GetCall) (rid : Nat) (r : NetRequest) :
    s.calls.get? i = some c → c.phase = GetPhase.awaitingOwn rid →
    findReq s rid = some r → r.status = ReqStatus.failedR →
    EngineStep s
      { s with
        calls := setPhase s.calls i (GetPhase.failedNet rid),
        inflight := jsErase s.inflight c.cacheKey }
| sharedResolve (s : EngineState) (i : Nat) (c : GetCall) (rid p : Nat)
    (r : NetRequest) :
    s.calls.get? i = some c → c.phase = GetPhase.awaitingShared rid →
    findReq s rid = some r → r.status = ReqStatus.resolvedR p →
    EngineStep s { s with calls := setPhase s.calls i (GetPhase.finishedNet rid p) }
| sharedFail (s : EngineState) (i : Nat) (c : GetCall) (rid : Nat) (r : NetRequest) :
    s.calls.get? i = some c → c.phase = GetPhase.awaitingShared rid →
    findReq s rid = some r → r.status = ReqStatus.failedR →
    EngineStep s { s with calls := setPhase s.calls i (GetPhase.failedNet rid) }

/-- An initial engine state: every call still ready, empty in-flight map, no
requests, any TTL-store contents. -/
def EngineInit (s : EngineState) : Prop :=
  s.inflight = [] ∧ s.requests = [] ∧ s.nextReq = 0
  ∧ ∀ c ∈ s.calls, c.phase = GetPhase.ready

/-- States reachable from an initial state by interleaving steps. -/
inductive EngineReachable : EngineState → Prop where
| init (s : EngineState) : EngineInit s → EngineReachable s
| step (s s2 : EngineState) :
    EngineReachable s → EngineStep s s2 → EngineReachable s2

/-- A concrete `get` call used to exercise the machine: plain GET for
`https://u/x`, no caching. -/
def witnessCall : GetCall :=
  { fullUrl := "https://u/x", cacheKey := "https://u/x", cacheTTL := 0,
    disableCache := false, phase := GetPhase.ready }

/-- Two concurrent identical `get` calls, nothing issued yet. -/
def witnessState0 : EngineState :=
  { calls := [witnessCall, witnessCall], inflight := [], requests := [],
    storage := [], nextReq := 0 }

/-- After the first call's check segment registered request 0. -/
def witnessState1 : EngineState :=
  { witnessState0 with
    calls := setPhase witnessState0.calls 0 (GetPhase.awaitingOwn 0),
    inflight := jsSet witnessState0.inflight witnessCall.cacheKey 0,
    requests := witnessState0.requests
      ++ [{ rid := 0, key := witnessCall.cacheKey, status := ReqStatus.pending }],
    nextReq := 1 }

/-- After the second call attached to request 0. -/
def witnessState2 : EngineState :=
  { witnessState1 with
    calls := setPhase witnessState1.calls 1 (GetPhase.awaitingShared 0) }

/-! ### Endpoint discovery machine (`prepare` / `getServiceEndpoints`)

Models concurrent `AlApiClient.prepare` calls (src/unnamed/part_007 lines
624-644) and `getServiceEndpoints` (lines 504-534).  Each step is one
synchronous segment; the `.then` handler of a discovery request (translating
hosts and writing the 15-minute TTL-store entry, lines 520-526) runs when the
transport resolves, before any awaiting `prepare` continuation resumes.  The
TTL-store entry for a discovery key is modelled without expiry (the traces of
interest are far shorter than 15 minutes); the failure branch of
`getServiceEndpoints` (lines 527-533) is not exercised by the trace used
here. -/

/-- One discovery network request: id, its (environment, accountId) pair,
the requested service list, and `result` (`none` while outstanding). -/
structure DiscoveryRequest where
  rid : Nat
  env : String
  acct : String
  serviceList : List String
  result : Option (List (String × String))
deriving DecidableEq, Repr

/-- Phase of one `prepare` coroutine. -/
inductive PrepPhase where
| ready
| awaitFirst (rid : Nat)
| awaitSecond (rid : Nat)
| done (collection : List (String × String))
deriving DecidableEq, Repr

/-- One `prepare` call: the requested service, the resolved account id
(`context_account_id || account_id || defaultAccountId || "0"`), the ambient
environment, and the phase. -/
structure PrepCall where
  service : String
  env : String
  acct : String
  phase : PrepPhase
deriving DecidableEq, Repr

/-- State of the discovery machinery: the `prepare` coroutines, the
`endpointResolution[env][acct]` promise table (nested JS objects, modelled
with a composite key), the requests, the TTL store restricted to discovery
keys, the id supply, and the static `AlApiClient.defaultServiceList` (which
`prepare` mutates in place by pushing new service names, line 633). -/
structure DiscoveryState where
  prepCalls : List PrepCall
  table : List (String × Nat)
  requests : List DiscoveryRequest
  cache : List (String × List (String × String))
  nextReq : Nat
  defaultServiceList : List String
deriving DecidableEq, Repr

/-- The discovery TTL-store key `/endpoints/{environment}/{accountId}`
(line 506). -/
def discoveryCacheKey (env acct : String) : String :=
  "/endpoints/" ++ env ++ "/" ++ acct

/-- Composite key standing for `endpointResolution[env][acct]`. -/
def tableKey (env acct : String) : String := env ++ "|" ++ acct

/-- Find the discovery request with the given id. -/
def findDReq (s : DiscoveryState) (rid : Nat) : Option DiscoveryRequest :=
  s.requests.find? (fun r => r.rid == rid)

/-- `getServiceEndpoints( accountId, serviceList )` up to its first await
(lines 504-519): it consults the TTL store, and on a hit the returned
promise is already resolved with the cached collection (no network call);
otherwise a network request goes out.  Returns the promise (request) id. -/
def gseStart (s : DiscoveryState) (env acct : String) (serviceList : List String) :
    Nat × DiscoveryState :=
  let res := jsGet s.cache (discoveryCacheKey env acct)
  (s.nextReq,
   { s with
     requests := s.requests
       ++ [{ rid := s.nextReq, env := env, acct := acct,
             serviceList := serviceList, result := res }],
     nextReq := s.nextReq + 1 })

/-- Replace the phase of `prepare` call `i`. -/
def setPrepPhase : List PrepCall → Nat → PrepPhase → List PrepCall
| [], _, _ => []
| c :: rest, 0, p => { c with phase := p } :: rest
| c :: rest, i + 1, p => c :: setPrepPhase rest i p

/-- Run the next segment of `prepare` coroutine `i`, if it can run.
`ready` is lines 625-636 up to the first await: an existing
`endpointResolution[env][acct]` promise is awaited as is; otherwise the
static service list is extended with the requested service when missing and
`getServiceEndpoints` is started and registered.  `awaitFirst` resumes once
its request settled (lines 637-643): a collection containing the service is
returned; otherwise the TTL-store entry is deleted and discovery re-issued
with `Object.keys(collection)` plus the service, replacing the table entry.
`awaitSecond` resumes once the re-issued request settled. -/
def runPrep (s : DiscoveryState) (i : Nat) : DiscoveryState :=
  match s.prepCalls.get? i with
  | none => s
  | some c =>
      match c.phase with
      | PrepPhase.ready =>
          match jsGet s.table (tableKey c.env c.acct) with
          | some rid =>
              { s with prepCalls := setPrepPhase s.prepCalls i (PrepPhase.awaitFirst rid) }
          | none =>
              let serviceList :=
                if c.service ∈ s.defaultServiceList then s.defaultServiceList
                else s.defaultServiceList ++ [c.service]
              let s1 := { s with defaultServiceList := serviceList }
              let started := gseStart s1 c.env c.acct serviceList
              { started.2 with
                table := jsSet started.2.table (tableKey c.env c.acct) started.1,
                prepCalls := setPrepPhase started.2.prepCalls i
                  (PrepPhase.awaitFirst started.1) }
      | PrepPhase.awaitFirst rid =>
          match findDReq s rid with
          | some req =>
              match req.result with
              | some coll =>
                  if (jsGet coll c.service).isSome then
                    { s with prepCalls := setPrepPhase s.prepCalls i (PrepPhase.done coll) }
                  else
                    let s1 := { s with
                      cache := jsErase s.cache (discoveryCacheKey c.env c.acct) }
                    let sl := coll.map (fun kv => kv.1) ++ [c.service]
                    let started := gseStart s1 c.env c.acct sl
                    { started.2 with
                      table := jsSet started.2.table (tableKey c.env c.acct) started.1,
                      prepCalls := setPrepPhase started.2.prepCalls i
                        (PrepPhase.awaitSecond started.1) }
              | none => s
          | none => s
      | PrepPhase.awaitSecond rid =>
          match findDReq s rid with
          | some req =>
              match req.result with
              | some coll =>
                  { s with prepCalls := setPrepPhase s.prepCalls i (PrepPhase.done coll) }
              | none => s
          | none => s
      | PrepPhase.done _ => s

/-- The transport resolving discovery request `rid` with the raw response
`raw`: the `.then` handler translates hosts and writes the TTL-store entry
(lines 520-526) within the same resolution turn. -/
def resolveDiscovery (s : DiscoveryState) (rid : Nat)
    (raw : List (String × String)) : DiscoveryState :=
  match findDReq s rid with
  | some req =>
      match req.result with
      | none =>
          let translated := endpointsTranslate raw
          { s with
            requests := s.requests.map (fun r =>
              if r.rid = rid then { r with result := some translated } else r),
            cache := jsSet s.cache (discoveryCacheKey req.env req.acct) translated }
      | some _ => s
  | none => s

/-- A schedule entry: run a coroutine segment, or let the transport resolve
a request. -/
inductive DStep where
| run (i : Nat)
| resolve (rid : Nat) (raw : List (String × String))
deriving DecidableEq, Repr

/-- Run a schedule. -/
def runDiscovery (s : DiscoveryState) : List DStep → DiscoveryState
| [] => s
| DStep.run i :: rest => runDiscovery (runPrep s i) rest
| DStep.resolve rid raw :: rest => runDiscovery (resolveDiscovery s rid raw) rest

/-- Number of outstanding discovery requests for one (environment,
accountId) pair. -/
def outstandingFor (s : DiscoveryState) (env acct : String) : Nat :=
  (s.requests.filter (fun r =>
    r.result.isNone && (r.env == env) && (r.acct == acct))).length

/-- The static `AlApiClient.defaultServiceList` (line 89). -/
def alDefaultServiceList : List String :=
  ["aims", "subscriptions", "search", "sources", "assets_query", "assets_write",
   "dashboards", "iris", "suggestions", "cargo"]

/-- Three concurrent `prepare` calls for services foo, bar and baz of the
same (production, "0") pair, nothing issued yet. -/
def discoveryTraceState0 : DiscoveryState :=
  { prepCalls :=
      [{ service := "foo", env := "production", acct := "0", phase := PrepPhase.ready },
       { service := "bar", env := "production", acct := "0", phase := PrepPhase.ready },
       { service := "baz", env := "production", acct := "0", phase := PrepPhase.ready }],
    table := [], requests := [], cache := [], nextReq := 0,
    defaultServiceList := alDefaultServiceList }

/-- The engine invariant.  `pendingReg` (every pending request is registered
in the in-flight map under its key) together with the functional map and
`idsUnique` yields the de-duplication property; the other components make the
invariant inductive. -/
structure EngineInv (s : EngineState) : Prop where
  pendingReg : ∀ r ∈ s.requests, r.status = ReqStatus.pending →
      jsGet s.inflight r.key = some r.rid
  mapToReq : ∀ k rid, jsGet s.inflight k = some rid →
      ∃ r ∈ s.requests, r.rid = rid ∧ r.key = k
  idsBound : ∀ r ∈ s.requests, r.rid < s.nextReq
  idsUnique : ∀ r1 ∈ s.requests, ∀ r2 ∈ s.requests, r1.rid = r2.rid → r1 = r2
  ownerReg : ∀ i c rid, s.calls.get? i = some c →
      c.phase = GetPhase.awaitingOwn rid → jsGet s.inflight c.cacheKey = some rid
  ownerUnique : ∀ i j ci cj rid, s.calls.get? i = some ci →
      s.calls.get? j = some cj → ci.phase = GetPhase.awaitingOwn rid →
      cj.phase = GetPhase.awaitingOwn rid → i = j
  awaitValid : ∀ i c rid, s.calls.get? i = some c →
      (c.phase = GetPhase.awaitingOwn rid ∨ c.phase = GetPhase.awaitingShared rid) →
      ∃ r ∈ s.requests, r.rid = rid
  finNet : ∀ i c rid v, s.calls.get? i = some c →
      c.phase = GetPhase.finishedNet rid v →
      ∃ r ∈ s.requests, r.rid = rid ∧ r.status = ReqStatus.resolvedR v

end ApiClient

namespace ApiClient

theorem jsGet_jsSet_self {α : Type} (m : List (String × α)) (k : String) (v : α) :
    jsGet (jsSet m k v) k = some v := by
  induction m with
  | nil => simp [jsSet, jsGet]
  | cons kv rest ih =>
      by_cases h : kv.1 = k
      · simp [jsSet, jsGet, h]
      · simp [jsSet, jsGet, h, ih]

theorem jsGet_jsSet_ne {α : Type} (m : List (String × α)) (k k2 : String) (v : α)
    (h : k2 ≠ k) : jsGet (jsSet m k v) k2 = jsGet m k2 := by
  have h2 : ¬ k = k2 := fun hh => h hh.symm
  induction m with
  | nil => simp [jsSet, jsGet, h2]
  | cons kv rest ih =>
      cases kv with
      | mk k1 v1 =>
        by_cases hk : k1 = k
        · subst hk
          simp [jsSet, jsGet, h2]
        · by_cases hk2 : k1 = k2
          · simp [jsSet, jsGet, hk, hk2, h]
          · simp [jsSet, jsGet, hk, hk2, ih]

theorem jsGet_jsErase_self {α : Type} (m : List (String × α)) (k : String) :
    jsGet (jsErase m k) k = none := by
  induction m with
  | nil => simp [jsErase, jsGet]
  | cons kv rest ih =>
      cases kv with
      | mk k1 v1 =>
        by_cases h : k1 = k
        · simpa [jsErase, jsGet, h] using ih
        · simpa [jsErase, jsGet, h] using ih

theorem jsGet_jsErase_ne {α : Type} (m : List (String × α)) (k k2 : String)
    (h : k2 ≠ k) : jsGet (jsErase m k) k2 = jsGet m k2 := by
  have h2 : ¬ k = k2 := fun hh => h hh.symm
  induction m with
  | nil => simp [jsErase, jsGet]
  | cons kv rest ih =>
      cases kv with
      | mk k1 v1 =>
        by_cases hk : k1 = k
        · subst hk
          simpa [jsErase, jsGet, h2] using ih
        · by_cases hk2 : k1 = k2
          · simp [jsErase, jsGet, hk, hk2, h]
          · simpa [jsErase, jsGet, hk, hk2] using ih

theorem cabDel_lookup_none {V : Type} (st : CabData V) (k : String) :
    jsGet (AlCabinet.del st k) k = none := by
  unfold AlCabinet.del
  cases h : jsGet st k with
  | none => exact h
  | some e => exact jsGet_jsErase_self st k

theorem axiosRequest_cons (cfg : RetryConfig) (fuel i : Nat) (o : AxAttempt)
    (rest : List AxAttempt) :
    axiosRequest cfg (fuel + 1) i (o :: rest)
      = match interceptAttempt o with
        | AxOutcome.resolved s d => (some (AxOutcome.resolved s d), rest)
        | AxOutcome.rejected e =>
            if isRetryableError (some e) cfg i then
              match axiosRequest cfg fuel (i + 2) rest with
              | (none, rem) => (none, rem)
              | (some (AxOutcome.resolved s d), rem) =>
                  (some (AxOutcome.resolved s d), rem)
              | (some (AxOutcome.rejected ex), rem) =>
                  if isRetryableError none cfg (i + 1) then
                    axiosRequest cfg fuel (i + 3) rem
                  else (some (AxOutcome.rejected ex), rem)
            else
              if isRetryableError none cfg i then
                axiosRequest cfg fuel (i + 2) rest
              else (some (AxOutcome.rejected e), rest) := rfl

theorem axiosRequest_remaining_le (cfg : RetryConfig) :
    ∀ (fuel i : Nat) (l : List AxAttempt),
      ((axiosRequest cfg fuel i l).2).length ≤ l.length := by
  intro fuel
  induction fuel with
  | zero => intro i l; simp [axiosRequest]
  | succ f ih =>
      intro i l
      cases l with
      | nil => simp [axiosRequest]
      | cons o rest =>
          simp only [axiosRequest]
          cases hio : interceptAttempt o with
          | resolved s d => simp
          | rejected e =>
              by_cases h1 : isRetryableError (some e) cfg i = true
              · simp only [h1, if_true]
                have hrem := ih (i + 2) rest
                rcases hres : axiosRequest cfg f (i + 2) rest with ⟨res, rem⟩
                rw [hres] at hrem
                simp only at hrem
                cases res with
                | none => simpa using Nat.le_succ_of_le hrem
                | some out =>
                    cases out with
                    | resolved s2 d2 => simpa using Nat.le_succ_of_le hrem
                    | rejected ex =>
                        by_cases h2 : isRetryableError none cfg (i + 1) = true
                        · simp only [h2, if_true]
                          have h3 := ih (i + 3) rem
                          exact le_trans h3 (Nat.le_succ_of_le hrem)
                        · simp only [h2, if_false]
                          simpa using Nat.le_succ_of_le hrem
              · by_cases h2 : isRetryableError none cfg i = true
                · simp only [h1, h2, if_true, if_false]
                  exact Nat.le_succ_of_le (ih (i + 2) rest)
                · simp [h1, h2]

theorem axiosRequest_consumes (cfg : RetryConfig) (fuel i : Nat) (o : AxAttempt)
    (rest : List AxAttempt) :
    ((axiosRequest cfg (fuel + 1) i (o :: rest)).2).length ≤ rest.length := by
  simp only [axiosRequest]
  cases hio : interceptAttempt o with
  | resolved s d => simp
  | rejected e =>
      by_cases h1 : isRetryableError (some e) cfg i = true
      · simp only [h1, if_true]
        have hrem := axiosRequest_remaining_le cfg fuel (i + 2) rest
        rcases hres : axiosRequest cfg fuel (i + 2) rest with ⟨res, rem⟩
        rw [hres] at hrem
        simp only at hrem
        cases res with
        | none => simpa using hrem
        | some out =>
            cases out with
            | resolved s2 d2 => simpa using hrem
            | rejected ex =>
                by_cases h2 : isRetryableError none cfg (i + 1) = true
                · simp only [h2, if_true]
                  exact le_trans (axiosRequest_remaining_le cfg fuel (i + 3) rem) hrem
                · simp only [h2, if_false]
                  simpa using hrem
      · by_cases h2 : isRetryableError none cfg i = true
        · simp only [h1, h2, if_true, if_false]
          exact axiosRequest_remaining_le cfg fuel (i + 2) rest
        · simp [h1, h2]

theorem getOnce_hit (cfg : GetConfig) (st : CabData Nat) (d now : Nat)
    (entry : CacheEntry Nat)
    (h1 : 0 < effectiveCacheTTL cfg.ttl) (h2 : cfg.disableCache = false)
    (h3 : jsGet st (fullUrlOf cfg) = some entry) (h5 : ¬ entry.expires < now)
    (h6 : entry.value ≠ 0) :
    getOnce cfg st d now = (entry.value, st, 0) := by
  have hread : getCachedTruthy st (fullUrlOf cfg) now = (some entry.value, st) := by
    unfold getCachedTruthy AlCabinet.get
    rw [h3]
    simp [h5, h6]
  unfold getOnce
  simp [h1, h2, hread]

theorem getOnce_miss_stores (cfg : GetConfig) (st : CabData Nat) (d now : Nat)
    (h1 : 1000 ≤ effectiveCacheTTL cfg.ttl) (h2 : cfg.disableCache = false)
    (h3 : (getCachedTruthy st (fullUrlOf cfg) now).1 = none) :
    getOnce cfg st d now
      = (d, jsSet (getCachedTruthy st (fullUrlOf cfg) now).2 (cacheKeyOf cfg)
            { expires := now + (effectiveCacheTTL cfg.ttl / 1000) * 1000, value := d },
         1) := by
  have h0 : 0 < effectiveCacheTTL cfg.ttl := lt_of_lt_of_le (by norm_num) h1
  have hnot : ¬ effectiveCacheTTL cfg.ttl < 1000 := Nat.not_lt.mpr h1
  have hdiv : effectiveCacheTTL cfg.ttl / 1000 ≠ 0 :=
    Nat.pos_iff_ne_zero.mp (Nat.div_pos h1 (by norm_num))
  unfold getOnce setCachedValue AlCabinet.set
  rcases hread : getCachedTruthy st (fullUrlOf cfg) now with ⟨r, st2⟩
  rw [hread] at h3
  simp only at h3
  subst h3
  simp [h0, h2, hread, hnot, hdiv]

theorem getNode_explicitContext (m : AlLocatorMatrix) (id : String)
    (c : AlLocationContext) : (getNode m id (some c)).2 = m := by
  unfold getNode
  have hc : ¬((jsGet m.nodes id).isSome = true
      ∧ (some c : Option AlLocationContext) = none) := by simp
  rw [if_neg hc]
  cases hl : lookupNode m id (some c) with
  | none => rfl
  | some x => rfl

theorem saveNode_nodes (m : AlLocatorMatrix) (n : AlLocationDescriptor) :
    (saveNode m n).nodes = m.nodes := by
  unfold saveNode
  by_cases h1 : strTruthy n.environment = true ∧ strTruthy n.residency = true
  · by_cases h2 : strTruthy n.locationId = true
    · simp [h1, h1.1, h2]
    · simp [h1, h1.1, h2]
  · by_cases h3 : strTruthy n.environment = true
    · have h4 : ¬ strTruthy n.residency = true := fun hb => h1 ⟨h3, hb⟩
      simp [h3, h4]
    · simp [h1, h3]

theorem setContext_nodes (m : AlLocatorMatrix) (ctx : Option AlLocationContext) :
    (setContext m ctx).nodes = [] := rfl

theorem getNode_cached_hit (m2 : AlLocatorMatrix) (id : String)
    (n : AlLocationDescriptor) (hm2 : jsGet m2.nodes id = some n) :
    getNode m2 id none = (some n, m2) := by
  have hfast2 : (jsGet m2.nodes id).isSome = true := by
    rw [hm2]
    rfl
  unfold getNode
  rw [if_pos ⟨hfast2, rfl⟩, hm2]

theorem getNode_ambient_caches (m : AlLocatorMatrix) (id : String)
    (n : AlLocationDescriptor) (h : (getNode m id none).1 = some n) :
    jsGet (getNode m id none).2.nodes id = some n
    ∧ getNode ((getNode m id none).2) id none = (some n, (getNode m id none).2) := by
  by_cases hfast : (jsGet m.nodes id).isSome = true
  · have heq : getNode m id none = (jsGet m.nodes id, m) := by
      unfold getNode
      rw [if_pos ⟨hfast, rfl⟩]
    rw [heq] at h
    have hval : jsGet m.nodes id = some n := h
    refine ⟨?_, ?_⟩
    · rw [heq]
      exact hval
    · rw [heq]
      exact getNode_cached_hit m id n hval
  · have hneg : ¬((jsGet m.nodes id).isSome = true
        ∧ (none : Option AlLocationContext) = none) := by
      intro hh
      exact hfast hh.1
    cases hl : lookupNode m id none with
    | none =>
        have heq : getNode m id none = (none, m) := by
          unfold getNode
          rw [if_neg hneg]
          simp only [hl]
        rw [heq] at h
        exact absurd h (by simp)
    | some x =>
        have heq : getNode m id none
            = (some x, { m with nodes := jsSet m.nodes id x }) := by
          unfold getNode
          rw [if_neg hneg]
          simp only [hl]
        rw [heq] at h
        have hx : x = n := Option.some.inj h
        subst hx
        have hval : jsGet ({ m with nodes := jsSet m.nodes id x }).nodes id = some x :=
          jsGet_jsSet_self m.nodes id x
        refine ⟨?_, ?_⟩
        · rw [heq]
          exact hval
        · rw [heq]
          exact getNode_cached_hit _ id x hval

theorem get?_setPhase_self (l : List GetCall) (i : Nat) (c : GetCall) (p : GetPhase)
    (h : l.get? i = some c) :
    (setPhase l i p).get? i = some { c with phase := p } := by
  induction l generalizing i with
  | nil => simp [List.get?] at h
  | cons c0 rest ih =>
      cases i with
      | zero =>
          rw [List.get?_cons_zero] at h
          injection h with h2
          subst h2
          rfl
      | succ j =>
          rw [List.get?_cons_succ] at h
          exact ih j h

theorem get?_setPhase_ne (l : List GetCall) (i j : Nat) (p : GetPhase)
    (h : j ≠ i) : (setPhase l i p).get? j = l.get? j := by
  induction l generalizing i j with
  | nil => cases i <;> rfl
  | cons c0 rest ih =>
      cases i with
      | zero =>
          cases j with
          | zero => exact absurd rfl h
          | succ j2 => rfl
      | succ i2 =>
          cases j with
          | zero => rfl
          | succ j2 =>
              show (setPhase rest i2 p).get? j2 = rest.get? j2
              exact ih i2 j2 (fun hh => h (by rw [hh]))

theorem findReq_some {s : EngineState} {rid : Nat} {r : NetRequest}
    (h : findReq s rid = some r) : r ∈ s.requests ∧ r.rid = rid := by
  unfold findReq at h
  refine ⟨List.mem_of_find?_eq_some h, ?_⟩
  have h2 := List.find?_some h
  simpa using h2

theorem markOne_rid (r : NetRequest) (rid : Nat) (st : ReqStatus) :
    (if r.rid = rid then { r with status := st } else r).rid = r.rid := by
  by_cases h : r.rid = rid <;> simp [h]

theorem markOne_key (r : NetRequest) (rid : Nat) (st : ReqStatus) :
    (if r.rid = rid then { r with status := st } else r).key = r.key := by
  by_cases h : r.rid = rid <;> simp [h]

theorem markReq_mem_of_ne {reqs : List NetRequest} {r : NetRequest} {rid : Nat}
    {st : ReqStatus} (h : r ∈ reqs) (hne : r.rid ≠ rid) :
    r ∈ markReq reqs rid st := by
  unfold markReq
  have h2 : (if r.rid = rid then { r with status := st } else r) = r := by
    simp [hne]
  exact h2 ▸ List.mem_map_of_mem _ h

theorem markReq_mem {reqs : List NetRequest} {rid : Nat} {st : ReqStatus}
    {r2 : NetRequest} (h : r2 ∈ markReq reqs rid st) :
    ∃ r ∈ reqs, r2 = if r.rid = rid then { r with status := st } else r := by
  unfold markReq at h
  rcases List.mem_map.mp h with ⟨r, hr, heq⟩
  exact ⟨r, hr, heq.symm⟩

theorem markReq_image {reqs : List NetRequest} {r : NetRequest} (rid : Nat)
    (st : ReqStatus) (h : r ∈ reqs) :
    (if r.rid = rid then { r with status := st } else r) ∈ markReq reqs rid st :=
  List.mem_map_of_mem _ h

theorem engineInit_inv {s : EngineState} (h : EngineInit s) : EngineInv s := by
  obtain ⟨hmap, hreq, _, hcalls⟩ := h
  constructor
  · intro r hr
    rw [hreq] at hr
    exact absurd hr (List.not_mem_nil r)
  · intro k rid hk
    rw [hmap] at hk
    simp [jsGet] at hk
  · intro r hr
    rw [hreq] at hr
    exact absurd hr (List.not_mem_nil r)
  · intro r1 hr1
    rw [hreq] at hr1
    exact absurd hr1 (List.not_mem_nil r1)
  · intro i c rid hc hphase
    have h1 := hcalls c (List.get?_mem hc)
    rw [h1] at hphase
    simp at hphase
  · intro i j ci cj rid hci hcj hpi hpj
    have h1 := hcalls ci (List.get?_mem hci)
    rw [h1] at hpi
    simp at hpi
  · intro i c rid hc hphase
    have h1 := hcalls c (List.get?_mem hc)
    rcases hphase with hp | hp <;> (rw [h1] at hp; simp at hp)
  · intro i c rid v hc hp
    have h1 := hcalls c (List.get?_mem hc)
    rw [h1] at hp
    simp at hp

theorem inv_phase_only (s : EngineState) (i : Nat) (c : GetCall) (p : GetPhase)
    (hc : s.calls.get? i = some c) (inv : EngineInv s)
    (howner : ∀ rid, p ≠ GetPhase.awaitingOwn rid)
    (hawait : ∀ rid, p = GetPhase.awaitingShared rid → ∃ r ∈ s.requests, r.rid = rid)
    (hfin : ∀ rid v, p = GetPhase.finishedNet rid v →
        ∃ r ∈ s.requests, r.rid = rid ∧ r.status = ReqStatus.resolvedR v) :
    EngineInv { s with calls := setPhase s.calls i p } := by
  obtain ⟨hpr, hmr, hib, hiu, hor, hou, hav, hfn⟩ := inv
  constructor
  · exact hpr
  · exact hmr
  · exact hib
  · exact hiu
  · intro j cj rid hcj hp
    have hcj2 : (setPhase s.calls i p).get? j = some cj := hcj
    by_cases hij : j = i
    · subst hij
      rw [get?_setPhase_self s.calls j c p hc] at hcj2
      injection hcj2 with h3
      subst h3
      exact absurd hp (howner rid)
    · rw [get?_setPhase_ne s.calls i j p hij] at hcj2
      exact hor j cj rid hcj2 hp
  · intro j k cj ck rid hcj hck hpj hpk
    have hcj2 : (setPhase s.calls i p).get? j = some cj := hcj
    have hck2 : (setPhase s.calls i p).get? k = some ck := hck
    by_cases hj : j = i
    · subst hj
      rw [get?_setPhase_self s.calls j c p hc] at hcj2
      injection hcj2 with h3
      subst h3
      exact absurd hpj (howner rid)
    · by_cases hk : k = i
      · subst hk
        rw [get?_setPhase_self s.calls k c p hc] at hck2
        injection hck2 with h3
        subst h3
        exact absurd hpk (howner rid)
      · rw [get?_setPhase_ne s.calls i j p hj] at hcj2
        rw [get?_setPhase_ne s.calls i k p hk] at hck2
        exact hou j k cj ck rid hcj2 hck2 hpj hpk
  · intro j cj rid hcj hp
    have hcj2 : (setPhase s.calls i p).get? j = some cj := hcj
    by_cases hij : j = i
    · subst hij
      rw [get?_setPhase_self s.calls j c p hc] at hcj2
      injection hcj2 with h3
      subst h3
      rcases hp with hp | hp
      · exact absurd hp (howner rid)
      · exact hawait rid hp
    · rw [get?_setPhase_ne s.calls i j p hij] at hcj2
      exact hav j cj rid hcj2 hp
  · intro j cj rid v hcj hp
    have hcj2 : (setPhase s.calls i p).get? j = some cj := hcj
    by_cases hij : j = i
    · subst hij
      rw [get?_setPhase_self s.calls j c p hc] at hcj2
      injection hcj2 with h3
      subst h3
      exact hfin rid v hp
    · rw [get?_setPhase_ne s.calls i j p hij] at hcj2
      exact hfn j cj rid v hcj2 hp

theorem engineStep_inv {s s2 : EngineState} (inv : EngineInv s)
    (hstep : EngineStep s s2) : EngineInv s2 := by
  cases hstep with
  | checkCacheHit i c v hc hready hhit =>
      exact inv_phase_only s i c _ hc inv (fun rid h => by simp at h)
        (fun rid h => by simp at h) (fun rid v2 h => by simp at h)
  | checkAttach i c r hc hready hhit hmap =>
      refine inv_phase_only s i c _ hc inv (fun rid h => by simp at h) ?_
        (fun rid v2 h => by simp at h)
      intro rid h
      injection h with h2
      subst h2
      rcases inv.mapToReq c.cacheKey r hmap with ⟨req, hm, hrid, _⟩
      exact ⟨req, hm, hrid⟩
  | sharedResolve i c rid p r hc hp hfind hst =>
      refine inv_phase_only s i c _ hc inv (fun rid2 h => by simp at h)
        (fun rid2 h => by simp at h) ?_
      intro rid2 v h
      injection h with h1 h2
      subst h1
      subst h2
      obtain ⟨hm, hr⟩ := findReq_some hfind
      exact ⟨r, hm, hr, hst⟩
  | sharedFail i c rid r hc hp hfind hst =>
      exact inv_phase_only s i c _ hc inv (fun rid2 h => by simp at h)
        (fun rid2 h => by simp at h) (fun rid2 v2 h => by simp at h)
  | checkRegister i c hc hready hhit hmap =>
      obtain ⟨hpr, hmr, hib, hiu, hor, hou, hav, hfn⟩ := inv
      constructor
      · intro r hr hst
        have hr2 : r ∈ s.requests
            ++ [{ rid := s.nextReq, key := c.cacheKey, status := ReqStatus.pending }] := hr
        rcases List.mem_append.mp hr2 with hl | hrr
        · have hold := hpr r hl hst
          have hne : r.key ≠ c.cacheKey := by
            intro hkey
            rw [hkey, hmap] at hold
            exact Option.noConfusion hold
          show jsGet (jsSet s.inflight c.cacheKey s.nextReq) r.key = some r.rid
          rw [jsGet_jsSet_ne s.inflight c.cacheKey r.key s.nextReq hne]
          exact hold
        · have he : r = { rid := s.nextReq, key := c.cacheKey, status := ReqStatus.pending } := by simpa using hrr
          subst he
          show jsGet (jsSet s.inflight c.cacheKey s.nextReq) c.cacheKey = some s.nextReq
          exact jsGet_jsSet_self _ _ _
      · intro k rid hk
        have hk2 : jsGet (jsSet s.inflight c.cacheKey s.nextReq) k = some rid := hk
        by_cases hkc : k = c.cacheKey
        · subst hkc
          rw [jsGet_jsSet_self] at hk2
          injection hk2 with h3
          subst h3
          exact ⟨{ rid := s.nextReq, key := c.cacheKey, status := ReqStatus.pending },
            List.mem_append_right _ (by simp), rfl, rfl⟩
        · rw [jsGet_jsSet_ne s.inflight c.cacheKey k s.nextReq hkc] at hk2
          rcases hmr k rid hk2 with ⟨r, hm, hrid, hkey⟩
          exact ⟨r, List.mem_append_left _ hm, hrid, hkey⟩
      · intro r hr
        have hr2 : r ∈ s.requests
            ++ [{ rid := s.nextReq, key := c.cacheKey, status := ReqStatus.pending }] := hr
        rcases List.mem_append.mp hr2 with hl | hrr
        · exact Nat.lt_succ_of_lt (hib r hl)
        · have he : r = { rid := s.nextReq, key := c.cacheKey, status := ReqStatus.pending } := by simpa using hrr
          subst he
          exact Nat.lt_succ_self _
      · intro r1 hr1 r2 hr2 heq
        have hr12 : r1 ∈ s.requests
            ++ [{ rid := s.nextReq, key := c.cacheKey, status := ReqStatus.pending }] := hr1
        have hr22 : r2 ∈ s.requests
            ++ [{ rid := s.nextReq, key := c.cacheKey, status := ReqStatus.pending }] := hr2
        rcases List.mem_append.mp hr12 with h1 | h1 <;>
          rcases List.mem_append.mp hr22 with h2 | h2
        · exact hiu r1 h1 r2 h2 heq
        · have e2 : r2 = { rid := s.nextReq, key := c.cacheKey, status := ReqStatus.pending } := by simpa using h2
          subst e2
          have hlt := hib r1 h1
          rw [heq] at hlt
          exact absurd hlt (lt_irrefl _)
        · have e1 : r1 = { rid := s.nextReq, key := c.cacheKey, status := ReqStatus.pending } := by simpa using h1
          subst e1
          have hlt := hib r2 h2
          rw [← heq] at hlt
          exact absurd hlt (lt_irrefl _)
        · have e1 : r1 = { rid := s.nextReq, key := c.cacheKey, status := ReqStatus.pending } := by simpa using h1
          have e2 : r2 = { rid := s.nextReq, key := c.cacheKey, status := ReqStatus.pending } := by simpa using h2
          rw [e1, e2]
      · intro j cj rid hcj hp
        have hcj2 : (setPhase s.calls i (GetPhase.awaitingOwn s.nextReq)).get? j
            = some cj := hcj
        by_cases hij : j = i
        · subst hij
          rw [get?_setPhase_self s.calls j c _ hc] at hcj2
          injection hcj2 with h3
          subst h3
          have h4 : GetPhase.awaitingOwn s.nextReq = GetPhase.awaitingOwn rid := hp
          injection h4 with h5
          subst h5
          show jsGet (jsSet s.inflight c.cacheKey s.nextReq) c.cacheKey = some s.nextReq
          exact jsGet_jsSet_self _ _ _
        · rw [get?_setPhase_ne s.calls i j _ hij] at hcj2
          have hold := hor j cj rid hcj2 hp
          have hne : cj.cacheKey ≠ c.cacheKey := by
            intro hkey
            rw [hkey, hmap] at hold
            exact Option.noConfusion hold
          show jsGet (jsSet s.inflight c.cacheKey s.nextReq) cj.cacheKey = some rid
          rw [jsGet_jsSet_ne s.inflight c.cacheKey cj.cacheKey s.nextReq hne]
          exact hold
      · intro j k cj ck rid hcj hck hpj hpk
        have hcj2 : (setPhase s.calls i (GetPhase.awaitingOwn s.nextReq)).get? j
            = some cj := hcj
        have hck2 : (setPhase s.calls i (GetPhase.awaitingOwn s.nextReq)).get? k
            = some ck := hck
        by_cases hj : j = i
        · by_cases hk : k = i
          · rw [hj, hk]
          · subst hj
            rw [get?_setPhase_self s.calls j c _ hc] at hcj2
            injection hcj2 with h3
            subst h3
            have h4 : GetPhase.awaitingOwn s.nextReq = GetPhase.awaitingOwn rid := hpj
            injection h4 with h5
            subst h5
            rw [get?_setPhase_ne s.calls j k _ hk] at hck2
            rcases hav k ck s.nextReq hck2 (Or.inl hpk) with ⟨r, hm, hrid⟩
            have hlt := hib r hm
            rw [hrid] at hlt
            exact absurd hlt (lt_irrefl _)
        · by_cases hk : k = i
          · subst hk
            rw [get?_setPhase_self s.calls k c _ hc] at hck2
            injection hck2 with h3
            subst h3
            have h4 : GetPhase.awaitingOwn s.nextReq = GetPhase.awaitingOwn rid := hpk
            injection h4 with h5
            subst h5
            rw [get?_setPhase_ne s.calls k j _ hj] at hcj2
            rcases hav j cj s.nextReq hcj2 (Or.inl hpj) with ⟨r, hm, hrid⟩
            have hlt := hib r hm
            rw [hrid] at hlt
            exact absurd hlt (lt_irrefl _)
          · rw [get?_setPhase_ne s.calls i j _ hj] at hcj2
            rw [get?_setPhase_ne s.calls i k _ hk] at hck2
            exact hou j k cj ck rid hcj2 hck2 hpj hpk
      · intro j cj rid hcj hp
        have hcj2 : (setPhase s.calls i (GetPhase.awaitingOwn s.nextReq)).get? j
            = some cj := hcj
        by_cases hij : j = i
        · subst hij
          rw [get?_setPhase_self s.calls j c _ hc] at hcj2
          injection hcj2 with h3
          subst h3
          rcases hp with hp | hp
          · have h4 : GetPhase.awaitingOwn s.nextReq = GetPhase.awaitingOwn rid := hp
            injection h4 with h5
            subst h5
            exact ⟨{ rid := s.nextReq, key := c.cacheKey, status := ReqStatus.pending },
              List.mem_append_right _ (by simp), rfl⟩
          · have h4 : GetPhase.awaitingOwn s.nextReq = GetPhase.awaitingShared rid := hp
            simp at h4
        · rw [get?_setPhase_ne s.calls i j _ hij] at hcj2
          rcases hav j cj rid hcj2 hp with ⟨r, hm, hrid⟩
          exact ⟨r, List.mem_append_left _ hm, hrid⟩
      · intro j cj rid v hcj hp
        have hcj2 : (setPhase s.calls i (GetPhase.awaitingOwn s.nextReq)).get? j
            = some cj := hcj
        by_cases hij : j = i
        · subst hij
          rw [get?_setPhase_self s.calls j c _ hc] at hcj2
          injection hcj2 with h3
          subst h3
          have h4 : GetPhase.awaitingOwn s.nextReq = GetPhase.finishedNet rid v := hp
          simp at h4
        · rw [get?_setPhase_ne s.calls i j _ hij] at hcj2
          rcases hfn j cj rid v hcj2 hp with ⟨r, hm, hrid, hst⟩
          exact ⟨r, List.mem_append_left _ hm, hrid, hst⟩
  | netResolve r0 p hmem hpend =>
      obtain ⟨hpr, hmr, hib, hiu, hor, hou, hav, hfn⟩ := inv
      constructor
      · intro r2 hr2 hst
        have hr22 : r2 ∈ markReq s.requests r0.rid (ReqStatus.resolvedR p) := hr2
        rcases markReq_mem hr22 with ⟨r, hr, hform⟩
        by_cases hrr : r.rid = r0.rid
        · rw [if_pos hrr] at hform
          subst hform
          simp at hst
        · rw [if_neg hrr] at hform
          subst hform
          exact hpr r2 hr hst
      · intro k rid hk
        rcases hmr k rid hk with ⟨r, hm, hrid, hkey⟩
        refine ⟨if r.rid = r0.rid then { r with status := ReqStatus.resolvedR p } else r,
          markReq_image _ _ hm, ?_, ?_⟩
        · rw [markOne_rid]
          exact hrid
        · rw [markOne_key]
          exact hkey
      · intro r2 hr2
        rcases markReq_mem hr2 with ⟨r, hr, hform⟩
        subst hform
        show (if r.rid = r0.rid then { r with status := ReqStatus.resolvedR p } else r).rid
          < s.nextReq
        rw [markOne_rid]
        exact hib r hr
      · intro r1 hr1 r2 hr2 heq
        rcases markReq_mem hr1 with ⟨q1, hq1, hf1⟩
        rcases markReq_mem hr2 with ⟨q2, hq2, hf2⟩
        subst hf1
        subst hf2
        rw [markOne_rid, markOne_rid] at heq
        rw [hiu q1 hq1 q2 hq2 heq]
      · exact hor
      · exact hou
      · intro j cj rid hcj hp
        rcases hav j cj rid hcj hp with ⟨r, hm, hrid⟩
        refine ⟨if r.rid = r0.rid then { r with status := ReqStatus.resolvedR p } else r,
          markReq_image _ _ hm, ?_⟩
        rw [markOne_rid]
        exact hrid
      · intro j cj rid v hcj hp
        rcases hfn j cj rid v hcj hp with ⟨r, hm, hrid, hst⟩
        have hne : r.rid ≠ r0.rid := by
          intro he
          have h2 := hiu r hm r0 hmem he
          rw [h2, hpend] at hst
          simp at hst
        exact ⟨r, markReq_mem_of_ne hm hne, hrid, hst⟩
  | netFail r0 hmem hpend =>
      obtain ⟨hpr, hmr, hib, hiu, hor, hou, hav, hfn⟩ := inv
      constructor
      · intro r2 hr2 hst
        have hr22 : r2 ∈ markReq s.requests r0.rid ReqStatus.failedR := hr2
        rcases markReq_mem hr22 with ⟨r, hr, hform⟩
        by_cases hrr : r.rid = r0.rid
        · rw [if_pos hrr] at hform
          subst hform
          simp at hst
        · rw [if_neg hrr] at hform
          subst hform
          exact hpr r2 hr hst
      · intro k rid hk
        rcases hmr k rid hk with ⟨r, hm, hrid, hkey⟩
        refine ⟨if r.rid = r0.rid then { r with status := ReqStatus.failedR } else r,
          markReq_image _ _ hm, ?_, ?_⟩
        · rw [markOne_rid]
          exact hrid
        · rw [markOne_key]
          exact hkey
      · intro r2 hr2
        rcases markReq_mem hr2 with ⟨r, hr, hform⟩
        subst hform
        show (if r.rid = r0.rid then { r with status := ReqStatus.failedR } else r).rid
          < s.nextReq
        rw [markOne_rid]
        exact hib r hr
      · intro r1 hr1 r2 hr2 heq
        rcases markReq_mem hr1 with ⟨q1, hq1, hf1⟩
        rcases markReq_mem hr2 with ⟨q2, hq2, hf2⟩
        subst hf1
        subst hf2
        rw [markOne_rid, markOne_rid] at heq
        rw [hiu q1 hq1 q2 hq2 heq]
      · exact hor
      · exact hou
      · intro j cj rid hcj hp
        rcases hav j cj rid hcj hp with ⟨r, hm, hrid⟩
        refine ⟨if r.rid = r0.rid then { r with status := ReqStatus.failedR } else r,
          markReq_image _ _ hm, ?_⟩
        rw [markOne_rid]
        exact hrid
      · intro j cj rid v hcj hp
        rcases hfn j cj rid v hcj hp with ⟨r, hm, hrid, hst⟩
        have hne : r.rid ≠ r0.rid := by
          intro he
          have h2 := hiu r hm r0 hmem he
          rw [h2, hpend] at hst
          simp at hst
        exact ⟨r, markReq_mem_of_ne hm hne, hrid, hst⟩
  | ownerResolve i c rid0 p r hc hphase hfind hst =>
      obtain ⟨hpr, hmr, hib, hiu, hor, hou, hav, hfn⟩ := inv
      obtain ⟨hrm, hrid0⟩ := findReq_some hfind
      have hcreg : jsGet s.inflight c.cacheKey = some rid0 := hor i c rid0 hc hphase
      constructor
      · intro r2 hr2 hst2
        have hold := hpr r2 hr2 hst2
        have hne : r2.key ≠ c.cacheKey := by
          intro hkey
          rw [hkey, hcreg] at hold
          injection hold with h4
          have h5 := hiu r2 hr2 r hrm (by rw [← h4, hrid0])
          rw [h5, hst] at hst2
          simp at hst2
        show jsGet (jsErase s.inflight c.cacheKey) r2.key = some r2.rid
        rw [jsGet_jsErase_ne s.inflight c.cacheKey r2.key hne]
        exact hold
      · intro k rid2 hk
        have hk2 : jsGet (jsErase s.inflight c.cacheKey) k = some rid2 := hk
        by_cases hkc : k = c.cacheKey
        · subst hkc
          rw [jsGet_jsErase_self] at hk2
          exact Option.noConfusion hk2
        · rw [jsGet_jsErase_ne s.inflight c.cacheKey k hkc] at hk2
          exact hmr k rid2 hk2
      · exact hib
      · exact hiu
      · intro j cj rid2 hcj hp
        have hcj2 : (setPhase s.calls i (GetPhase.finishedNet rid0 p)).get? j
            = some cj := hcj
        by_cases hij : j = i
        · subst hij
          rw [get?_setPhase_self s.calls j c _ hc] at hcj2
          injection hcj2 with h3
          subst h3
          have h4 : GetPhase.finishedNet rid0 p = GetPhase.awaitingOwn rid2 := hp
          simp at h4
        · rw [get?_setPhase_ne s.calls i j _ hij] at hcj2
          have hold := hor j cj rid2 hcj2 hp
          have hne : cj.cacheKey ≠ c.cacheKey := by
            intro hkey
            rw [hkey, hcreg] at hold
            injection hold with h4
            subst h4
            exact hij (hou j i cj c rid0 hcj2 hc hp hphase)
          show jsGet (jsErase s.inflight c.cacheKey) cj.cacheKey = some rid2
          rw [jsGet_jsErase_ne s.inflight c.cacheKey cj.cacheKey hne]
          exact hold
      · intro j k cj ck rid2 hcj hck hpj hpk
        have hcj2 : (setPhase s.calls i (GetPhase.finishedNet rid0 p)).get? j
            = some cj := hcj
        have hck2 : (setPhase s.calls i (GetPhase.finishedNet rid0 p)).get? k
            = some ck := hck
        by_cases hj : j = i
        · subst hj
          rw [get?_setPhase_self s.calls j c _ hc] at hcj2
          injection hcj2 with h3
          subst h3
          have h4 : GetPhase.finishedNet rid0 p = GetPhase.awaitingOwn rid2 := hpj
          simp at h4
        · by_cases hk : k = i
          · subst hk
            rw [get?_setPhase_self s.calls k c _ hc] at hck2
            injection hck2 with h3
            subst h3
            have h4 : GetPhase.finishedNet rid0 p = GetPhase.awaitingOwn rid2 := hpk
            simp at h4
          · rw [get?_setPhase_ne s.calls i j _ hj] at hcj2
            rw [get?_setPhase_ne s.calls i k _ hk] at hck2
            exact hou j k cj ck rid2 hcj2 hck2 hpj hpk
      · intro j cj rid2 hcj hp
        have hcj2 : (setPhase s.calls i (GetPhase.finishedNet rid0 p)).get? j
            = some cj := hcj
        by_cases hij : j = i
        · subst hij
          rw [get?_setPhase_self s.calls j c _ hc] at hcj2
          injection hcj2 with h3
          subst h3
          rcases hp with hp | hp
          · have h4 : GetPhase.finishedNet rid0 p = GetPhase.awaitingOwn rid2 := hp
            simp at h4
          · have h4 : GetPhase.finishedNet rid0 p = GetPhase.awaitingShared rid2 := hp
            simp at h4
        · rw [get?_setPhase_ne s.calls i j _ hij] at hcj2
          exact hav j cj rid2 hcj2 hp
      · intro j cj rid2 v hcj hp
        have hcj2 : (setPhase s.calls i (GetPhase.finishedNet rid0 p)).get? j
            = some cj := hcj
        by_cases hij : j = i
        · subst hij
          rw [get?_setPhase_self s.calls j c _ hc] at hcj2
          injection hcj2 with h3
          subst h3
          have h4 : GetPhase.finishedNet rid0 p = GetPhase.finishedNet rid2 v := hp
          injection h4 with h5 h6
          subst h5
          subst h6
          exact ⟨r, hrm, hrid0, hst⟩
        · rw [get?_setPhase_ne s.calls i j _ hij] at hcj2
          exact hfn j cj rid2 v hcj2 hp
  | ownerFail i c rid0 r hc hphase hfind hst =>
      obtain ⟨hpr, hmr, hib, hiu, hor, hou, hav, hfn⟩ := inv
      obtain ⟨hrm, hrid0⟩ := findReq_some hfind
      have hcreg : jsGet s.inflight c.cacheKey = some rid0 := hor i c rid0 hc hphase
      constructor
      · intro r2 hr2 hst2
        have hold := hpr r2 hr2 hst2
        have hne : r2.key ≠ c.cacheKey := by
          intro hkey
          rw [hkey, hcreg] at hold
          injection hold with h4
          have h5 := hiu r2 hr2 r hrm (by rw [← h4, hrid0])
          rw [h5, hst] at hst2
          simp at hst2
        show jsGet (jsErase s.inflight c.cacheKey) r2.key = some r2.rid
        rw [jsGet_jsErase_ne s.inflight c.cacheKey r2.key hne]
        exact hold
      · intro k rid2 hk
        have hk2 : jsGet (jsErase s.inflight c.cacheKey) k = some rid2 := hk
        by_cases hkc : k = c.cacheKey
        · subst hkc
          rw [jsGet_jsErase_self] at hk2
          exact Option.noConfusion hk2
        · rw [jsGet_jsErase_ne s.inflight c.cacheKey k hkc] at hk2
          exact hmr k rid2 hk2
      · exact hib
      · exact hiu
      · intro j cj rid2 hcj hp
        have hcj2 : (setPhase s.calls i (GetPhase.failedNet rid0)).get? j
            = some cj := hcj
        by_cases hij : j = i
        · subst hij
          rw [get?_setPhase_self s.calls j c _ hc] at hcj2
          injection hcj2 with h3
          subst h3
          have h4 : GetPhase.failedNet rid0 = GetPhase.awaitingOwn rid2 := hp
          simp at h4
        · rw [get?_setPhase_ne s.calls i j _ hij] at hcj2
          have hold := hor j cj rid2 hcj2 hp
          have hne : cj.cacheKey ≠ c.cacheKey := by
            intro hkey
            rw [hkey, hcreg] at hold
            injection hold with h4
            subst h4
            exact hij (hou j i cj c rid0 hcj2 hc hp hphase)
          show jsGet (jsErase s.inflight c.cacheKey) cj.cacheKey = some rid2
          rw [jsGet_jsErase_ne s.inflight c.cacheKey cj.cacheKey hne]
          exact hold
      · intro j k cj ck rid2 hcj hck hpj hpk
        have hcj2 : (setPhase s.calls i (GetPhase.failedNet rid0)).get? j
            = some cj := hcj
        have hck2 : (setPhase s.calls i (GetPhase.failedNet rid0)).get? k
            = some ck := hck
        by_cases hj : j = i
        · subst hj
          rw [get?_setPhase_self s.calls j c _ hc] at hcj2
          injection hcj2 with h3
          subst h3
          have h4 : GetPhase.failedNet rid0 = GetPhase.awaitingOwn rid2 := hpj
          simp at h4
        · by_cases hk : k = i
          · subst hk
            rw [get?_setPhase_self s.calls k c _ hc] at hck2
            injection hck2 with h3
            subst h3
            have h4 : GetPhase.failedNet rid0 = GetPhase.awaitingOwn rid2 := hpk
            simp at h4
          · rw [get?_setPhase_ne s.calls i j _ hj] at hcj2
            rw [get?_setPhase_ne s.calls i k _ hk] at hck2
            exact hou j k cj ck rid2 hcj2 hck2 hpj hpk
      · intro j cj rid2 hcj hp
        have hcj2 : (setPhase s.calls i (GetPhase.failedNet rid0)).get? j
            = some cj := hcj
        by_cases hij : j = i
        · subst hij
          rw [get?_setPhase_self s.calls j c _ hc] at hcj2
          injection hcj2 with h3
          subst h3
          rcases hp with hp | hp
          · have h4 : GetPhase.failedNet rid0 = GetPhase.awaitingOwn rid2 := hp
            simp at h4
          · have h4 : GetPhase.failedNet rid0 = GetPhase.awaitingShared rid2 := hp
            simp at h4
        · rw [get?_setPhase_ne s.calls i j _ hij] at hcj2
          exact hav j cj rid2 hcj2 hp
      · intro j cj rid2 v hcj hp
        have hcj2 : (setPhase s.calls i (GetPhase.failedNet rid0)).get? j
            = some cj := hcj
        by_cases hij : j = i
        · subst hij
          rw [get?_setPhase_self s.calls j c _ hc] at hcj2
          injection hcj2 with h3
          subst h3
          have h4 : GetPhase.failedNet rid0 = GetPhase.finishedNet rid2 v := hp
          simp at h4
        · rw [get?_setPhase_ne s.calls i j _ hij] at hcj2
          exact hfn j cj rid2 v hcj2 hp

theorem engineReachable_inv {s : EngineState} (h : EngineReachable s) :
    EngineInv s := by
  induction h with
  | init s hinit => exact engineInit_inv hinit
  | step s s2 hreach hstep ih => exact engineStep_inv ih hstep

theorem strLengthPos (s : String) (h : s ≠ "") : 0 < s.length := by
  cases s with
  | mk data =>
      cases data with
      | nil => exact absurd rfl h
      | cons c cs => simp [String.length]

theorem swAgain_syncInv {V : Type} (w : CabWorld V) (h : SyncInv w) :
    SyncInv (swAgain w) := by
  unfold SyncInv at *
  unfold swAgain
  cases htimer : w.sw.timer with
  | some id => simpa [htimer] using h
  | none =>
      rw [htimer] at h
      simp [htimer, h]

theorem swAgain_pending_noop {V : Type} (w : CabWorld V) (id : Nat)
    (h : w.sw.timer = some id) : swAgain w = w := by
  unfold swAgain
  rw [h]

theorem worldTick_syncInv {V : Type} (w : CabWorld V) (now : Nat) (h : SyncInv w) :
    SyncInv (worldTick w now) := by
  unfold SyncInv at *
  unfold worldTick swCancel
  cases htimer : w.sw.timer with
  | none => simpa [htimer] using h
  | some id =>
      rw [htimer] at h
      simp [htimer, h]

theorem worldSet_syncInv {V : Type} (w : CabWorld V) (k : String) (v : JSVal V)
    (ttl now : Nat) (h : SyncInv w) : SyncInv (worldSet w k v ttl now) := by
  unfold worldSet
  cases v with
  | undef =>
      cases hk : jsGet w.data k with
      | none => exact h
      | some e => exact swAgain_syncInv _ h
  | val x => exact swAgain_syncInv _ h

theorem worldDelete_syncInv {V : Type} (w : CabWorld V) (k : String)
    (h : SyncInv w) : SyncInv (worldDelete w k) := by
  unfold worldDelete
  cases hk : jsGet w.data k with
  | none => exact h
  | some e => exact swAgain_syncInv _ h

theorem worldGet_syncInv {V : Type} (w : CabWorld V) (k : String) (now : Nat)
    (h : SyncInv w) : SyncInv (worldGet w k now) := by
  unfold worldGet
  cases hk : jsGet w.data k with
  | none => exact h
  | some e =>
      by_cases he : 0 < e.expires ∧ e.expires < now
      · simpa [he] using swAgain_syncInv { w with data := jsErase w.data k } h
      · simpa [he] using h

theorem runCabOp_syncInv {V : Type} (w : CabWorld V) (op : CabOp V) (h : SyncInv w) :
    SyncInv (runCabOp w op) := by
  cases op with
  | setOp k v ttl now => exact worldSet_syncInv w k v ttl now h
  | delOp k => exact worldDelete_syncInv w k h
  | getOp k now => exact worldGet_syncInv w k now h
  | tickOp now => exact worldTick_syncInv w now h

theorem runCabOps_syncInv {V : Type} (ops : List (CabOp V)) (w : CabWorld V)
    (h : SyncInv w) : SyncInv (runCabOps w ops) := by
  induction ops generalizing w with
  | nil => exact h
  | cons op rest ih => exact ih _ (runCabOp_syncInv w op h)

end ApiClient

open ApiClient

/-- C9: for every key not present in the Cabinet's data, `get(key, default)`
returns `undefined` regardless of the default (the source returns
`this.data[property]` on a missing key); the default is returned only when an
existing entry is found expired at read time, in which case the entry is also
deleted; an existing unexpired entry yields its stored value. -/
theorem claim_C9 {V : Type} (data : CabData V) (k : String) (d : JSVal V) (now : Nat) :
    (jsGet data k = none →
        AlCabinet.get data k d false now = (JSVal.undef, data))
    ∧ (∀ e : CacheEntry V, jsGet data k = some e → 0 < e.expires → e.expires < now →
        (AlCabinet.get data k d false now).1 = d
        ∧ jsGet (AlCabinet.get data k d false now).2 k = none)
    ∧ (∀ e : CacheEntry V, jsGet data k = some e → ¬ (0 < e.expires ∧ e.expires < now) →
        AlCabinet.get data k d false now = (JSVal.val e.value, data)) := by
  refine ⟨?_, ?_, ?_⟩
  · intro h
    simp [AlCabinet.get, h]
  · intro e he h1 h2
    simp [AlCabinet.get, he, h1, h2, jsGet_jsErase_self]
  · intro e he h
    rw [Decidable.not_and_iff_or_not] at h
    rcases h with h | h
    · simp [AlCabinet.get, he, Nat.le_of_not_lt h]
    · simp [AlCabinet.get, he, Nat.le_of_not_lt h]

/-- Witness for C9 at a concrete cabinet. -/
theorem claim_C9_witness :
    (AlCabinet.get ([] : CabData Nat) "missing" (JSVal.val 7) false 5
        = (JSVal.undef, []))
    ∧ ((AlCabinet.get [("k", ({ expires := 3, value := 9 } : CacheEntry Nat))] "k"
          (JSVal.val 7) false 5).1 = JSVal.val 7) := by
  refine ⟨?_, ?_⟩
  · exact (claim_C9 ([] : CabData Nat) "missing" (JSVal.val 7) 5).1 (by rfl)
  · exact ((claim_C9 [("k", ({ expires := 3, value := 9 } : CacheEntry Nat))] "k"
        (JSVal.val 7) 5).2.1 { expires := 3, value := 9 } (by rfl)
        (by decide) (by decide)).1

/-- C10: `AlCabinet.local` and `AlCabinet.ephemeral` both construct cabinets
of type `PERSISTENT` (src/unnamed/part_001 lines 100 and 73), including the
engine's `apiclient.cache` store; every such cabinet has a synchronizer
scheduled by the constructor and `synchronize` flushes it to localStorage,
rather than being memory-only or sessionStorage-backed. -/
theorem claim_C10 :
    (∀ name : String, (alCabinetLocal (V := Nat) name).type = AlCabinet.PERSISTENT)
    ∧ (∀ (name : String) (stored : Option (CabData Nat)),
        (alCabinetEphemeral name stored).type = AlCabinet.PERSISTENT)
    ∧ (alCabinetLocal (V := Nat) "apiclient.cache").type = AlCabinet.PERSISTENT
    ∧ (∀ name : String,
        (alCabinetLocal (V := Nat) name).hasSyncronizer = true
        ∧ synchronizeTarget (alCabinetLocal (V := Nat) name)
            = some StorageKind.localStorage)
    ∧ (∀ (name : String) (stored : Option (CabData Nat)),
        (alCabinetEphemeral name stored).hasSyncronizer = true
        ∧ synchronizeTarget (alCabinetEphemeral name stored)
            = some StorageKind.localStorage) := by
  refine ⟨fun _ => rfl, fun _ stored => ?_, rfl, fun _ => ⟨rfl, rfl⟩, fun _ stored => ?_⟩
  · cases stored <;> rfl
  · cases stored <;> exact ⟨rfl, rfl⟩

/-- C7 (amended): in a persistent Cabinet, repeated mutations (set/delete)
schedule at most one pending synchronize flush; however a mutation made while
a flush is already pending leaves that pending flush's schedule completely
unchanged (`AlStopwatch.again` is a no-op when a timer is pending), rather
than canceling and rescheduling it. -/
theorem claim_C7 :
    (∀ (ops : List (CabOp Nat)) (w : CabWorld Nat),
        SyncInv w → SyncInv (runCabOps w ops))
    ∧ (∀ w : CabWorld Nat, SyncInv w → w.queue.length ≤ 1)
    ∧ (∀ (w : CabWorld Nat) (id : Nat) (k : String) (v : JSVal Nat) (ttl now : Nat),
        w.sw.timer = some id →
          (runCabOp w (CabOp.setOp k v ttl now)).sw = w.sw
          ∧ (runCabOp w (CabOp.setOp k v ttl now)).queue = w.queue
          ∧ (runCabOp w (CabOp.delOp k)).sw = w.sw
          ∧ (runCabOp w (CabOp.delOp k)).queue = w.queue) := by
  refine ⟨fun ops w h => runCabOps_syncInv ops w h, ?_, ?_⟩
  · intro w h
    unfold SyncInv at h
    cases htimer : w.sw.timer with
    | none => rw [htimer] at h; simp [h]
    | some id => rw [htimer] at h; simp [h]
  · intro w id k v ttl now htimer
    have hagain : ∀ d : CabData Nat,
        swAgain { w with data := d } = { w with data := d } := by
      intro d
      unfold swAgain
      simp [htimer]
    have hset : (runCabOp w (CabOp.setOp k v ttl now)).sw = w.sw
        ∧ (runCabOp w (CabOp.setOp k v ttl now)).queue = w.queue := by
      cases v with
      | undef =>
          cases hk : jsGet w.data k with
          | none => simp [runCabOp, worldSet, hk]
          | some e => simp [runCabOp, worldSet, hk, hagain]
      | val x => simp [runCabOp, worldSet, hagain]
    have hdel : (runCabOp w (CabOp.delOp k)).sw = w.sw
        ∧ (runCabOp w (CabOp.delOp k)).queue = w.queue := by
      cases hk : jsGet w.data k with
      | none => simp [runCabOp, worldDelete, hk]
      | some e => simp [runCabOp, worldDelete, hk, hagain]
    exact ⟨hset.1, hset.2, hdel.1, hdel.2⟩

/-- C7 counterexample: the claim that each mutation cancels and reschedules
the pending flush is false.  Starting from a fresh persistent cabinet, a
first `set` schedules timer 0; a second `set` leaves timer 0 pending and
allocates no new timer (`nextTimer` is still 1), so nothing was canceled or
rescheduled. -/
theorem claim_C7_counterexample :
    (runCabOps (initCabWorld Nat)
        [CabOp.setOp "a" (JSVal.val 1) 0 100]).sw.timer = some 0
    ∧ (runCabOps (initCabWorld Nat)
        [CabOp.setOp "a" (JSVal.val 1) 0 100,
         CabOp.setOp "b" (JSVal.val 2) 0 200]).sw.timer = some 0
    ∧ (runCabOps (initCabWorld Nat)
        [CabOp.setOp "a" (JSVal.val 1) 0 100,
         CabOp.setOp "b" (JSVal.val 2) 0 200]).nextTimer = 1
    ∧ (runCabOps (initCabWorld Nat)
        [CabOp.setOp "a" (JSVal.val 1) 0 100,
         CabOp.setOp "b" (JSVal.val 2) 0 200]).queue = [0] := by
  refine ⟨rfl, rfl, rfl, rfl⟩

/-- Witness for C7 at a concrete world. -/
theorem claim_C7_witness :
    SyncInv (runCabOps (initCabWorld Nat) [CabOp.setOp "a" (JSVal.val 1) 0 100])
    ∧ (runCabOp (runCabOps (initCabWorld Nat) [CabOp.setOp "a" (JSVal.val 1) 0 100])
          (CabOp.setOp "b" (JSVal.val 2) 0 200)).queue
        = (runCabOps (initCabWorld Nat) [CabOp.setOp "a" (JSVal.val 1) 0 100]).queue :=
  ⟨claim_C7.1 [CabOp.setOp "a" (JSVal.val 1) 0 100] (initCabWorld Nat) rfl,
   (claim_C7.2.2 (runCabOps (initCabWorld Nat) [CabOp.setOp "a" (JSVal.val 1) 0 100])
      0 "b" (JSVal.val 2) 0 200 rfl).2.1⟩

/-- C5: `calculateRequestURL` appends, to the resolved host, `/serviceName`,
then the version (string used literally, positive integer N as `vN`), then a
non-zero non-"0" account id, then the path without duplicating a leading
slash, in that fixed order; the aims/v1/2/users example with discovery host
api.example.com yields https://api.example.com/aims/v1/2/users. -/
theorem claim_C5 :
    (∀ (coll : List (String × String)) (resolveURL : Option String → String)
        (p : URLParams) (s : String),
        p.service_name = some s → s ≠ "" →
        p.version ≠ some (VersionVal.str "") → p.path ≠ some "" →
        calculateRequestURL coll resolveURL p
          = specRequestURL (resolveServiceBaseURL coll resolveURL p) s
              p.version p.account_id p.path)
    ∧ (∀ resolveURL : Option String → String,
        calculateRequestURL (endpointsTranslate [("aims", "api.example.com")]) resolveURL
          { service_stack := some AlLocationInsightAPI, service_name := some "aims",
            version := some (VersionVal.str "v1"), account_id := some "2",
            path := some "users", noEndpointsResolution := false }
          = "https://api.example.com/aims/v1/2/users") := by
  constructor
  · intro coll resolveURL p s hs hsne hv hp
    unfold calculateRequestURL specRequestURL
    rw [hs]
    have hslen : ¬ s = "" := hsne
    have hstep : ∀ base : String,
        (match p.version with
          | some (VersionVal.str v) =>
              if 0 < v.length then base ++ ("/" ++ v) else base
          | some (VersionVal.num n) =>
              if 0 < n then base ++ ("/v" ++ toString n) else base
          | none => base)
        = base
          ++ (match p.version with
              | some (VersionVal.str v) => "/" ++ v
              | some (VersionVal.num n) => if 0 < n then "/v" ++ toString n else ""
              | none => "") := by
      intro base
      cases hver : p.version with
      | none => simp
      | some vv =>
          cases vv with
          | str v =>
              have hvne : v ≠ "" := fun he => hv (by rw [hver, he])
              simp [strLengthPos v hvne]
          | num n =>
              by_cases hn : 0 < n
              · simp [hn]
              · simp [hn]
    have hstepa : ∀ base : String,
        (match p.account_id with
          | some a => if a = "" ∨ a = "0" then base else base ++ ("/" ++ a)
          | none => base)
        = base
          ++ (match p.account_id with
              | some a => if a = "" ∨ a = "0" then "" else "/" ++ a
              | none => "") := by
      intro base
      cases hacc : p.account_id with
      | none => simp
      | some a =>
          by_cases ha : a = "" ∨ a = "0"
          · simp [ha]
          · simp [ha]
    have hstepp : ∀ base : String,
        (match p.path with
          | some pa =>
              if 0 < pa.length then
                base ++ ((if strHead pa = some '/' then "" else "/") ++ pa)
              else base
          | none => base)
        = base
          ++ (match p.path with
              | some pa => (if strHead pa = some '/' then "" else "/") ++ pa
              | none => "") := by
      intro base
      cases hpath : p.path with
      | none => simp
      | some pa =>
          have hpane : pa ≠ "" := fun he => hp (by rw [hpath, he])
          simp [strLengthPos pa hpane]
    simp only [if_neg hslen, hstep, hstepa, hstepp]
  · intro resolveURL
    rfl

/-- C2: at the `axiosRequest` level a failed attempt at index i is retried
(at least one further transport attempt is issued) iff the request config
contains retry_count and i is strictly below it — for every error kind,
because a rejection the inner axios handler declines is retried by the outer
catch via `isRetryableError( null, ... )`; and a request with retry_count=3
whose attempts answer 500, 500, 200 resolves with the success payload and
issues no attempt beyond the 3rd. -/
theorem claim_C2 :
    (∀ (cfg : RetryConfig) (fuel i : Nat) (o : AxAttempt) (e : Option Nat)
        (rest : List AxAttempt),
        interceptAttempt o = AxOutcome.rejected e → rest ≠ [] →
        (((axiosRequest cfg (fuel + 2) i (o :: rest)).2).length < rest.length
          ↔ ∃ rc, cfg.retry_count = some rc ∧ i < rc))
    ∧ (∀ extra : List AxAttempt,
        axiosRequest { retry_count := some 3, retry_interval := some 10 } 9 0
            ([AxAttempt.response 500 1, AxAttempt.response 500 2,
              AxAttempt.response 200 42] ++ extra)
          = (some (AxOutcome.resolved 200 42), extra)) := by
  constructor
  · intro cfg fuel i o e rest ho hrest
    constructor
    · intro hlt
      by_contra hno
      have hg : ∀ rc, cfg.retry_count = some rc → rc ≤ i := by
        intro rc hrc
        by_contra hlt2
        exact hno ⟨rc, hrc, Nat.lt_of_not_le hlt2⟩
      have hg1 : isRetryableError (some e) cfg i = false := by
        unfold isRetryableError
        cases hrc : cfg.retry_count with
        | none => rfl
        | some rc => simp [hg rc hrc]
      have hg2 : isRetryableError none cfg i = false := by
        unfold isRetryableError
        cases hrc : cfg.retry_count with
        | none => rfl
        | some rc => simp [hg rc hrc]
      have heq : axiosRequest cfg (fuel + 2) i (o :: rest)
          = (some (AxOutcome.rejected e), rest) := by
        show axiosRequest cfg (fuel + 1 + 1) i (o :: rest)
          = (some (AxOutcome.rejected e), rest)
        simp only [axiosRequest]
        rw [ho]
        simp [hg1, hg2]
      rw [heq] at hlt
      exact absurd hlt (lt_irrefl _)
    · rintro ⟨rc, hrc, hirc⟩
      cases rest with
      | nil => exact absurd rfl hrest
      | cons o2 rest2 =>
          show ((axiosRequest cfg (fuel + 1 + 1) i (o :: o2 :: rest2)).2).length
            < (o2 :: rest2).length
          rw [axiosRequest_cons, ho]
          by_cases h1 : isRetryableError (some e) cfg i = true
          · simp only [h1, if_true]
            have hcon := axiosRequest_consumes cfg fuel (i + 2) o2 rest2
            rcases hres : axiosRequest cfg (fuel + 1) (i + 2) (o2 :: rest2) with ⟨res, rem⟩
            rw [hres] at hcon
            simp only at hcon
            cases res with
            | none => simpa using Nat.lt_succ_of_le hcon
            | some out =>
                cases out with
                | resolved s2 d2 => simpa using Nat.lt_succ_of_le hcon
                | rejected ex =>
                    by_cases h2 : isRetryableError none cfg (i + 1) = true
                    · simp only [h2, if_true]
                      have h3 := axiosRequest_remaining_le cfg (fuel + 1) (i + 3) rem
                      simpa using Nat.lt_succ_of_le (le_trans h3 hcon)
                    · simp only [h2, if_false]
                      simpa using Nat.lt_succ_of_le hcon
          · have h2 : isRetryableError none cfg i = true := by
              unfold isRetryableError
              rw [hrc]
              simp [Nat.not_le.mpr hirc]
            simp only [h1, h2, if_true, if_false]
            simpa using Nat.lt_succ_of_le (axiosRequest_consumes cfg fuel (i + 2) o2 rest2)
  · intro extra
    rfl

/-- Witness for C2 with retry_count 3 and a failing 500 first attempt. -/
theorem claim_C2_witness :
    (((axiosRequest { retry_count := some 3, retry_interval := some 10 } 2 0
        [AxAttempt.response 500 1, AxAttempt.netfail]).2).length < 1
      ↔ ∃ rc, ({ retry_count := some 3, retry_interval := some 10 }
            : RetryConfig).retry_count = some rc ∧ 0 < rc)
    ∧ axiosRequest { retry_count := some 3, retry_interval := some 10 } 9 0
        ([AxAttempt.response 500 1, AxAttempt.response 500 2,
          AxAttempt.response 200 42] ++ [AxAttempt.netfail])
      = (some (AxOutcome.resolved 200 42), [AxAttempt.netfail]) :=
  ⟨claim_C2.1 { retry_count := some 3, retry_interval := some 10 } 0 0
      (AxAttempt.response 500 1) (some 500) [AxAttempt.netfail] rfl (by simp),
   claim_C2.2 [AxAttempt.netfail]⟩

/-- C3 (amended): for a GET whose effective ttl is at least 1000 ms with
caching enabled, a miss performs one network call and stores the payload
under the cache key (explicit cacheKey, else full URL) with expiry
`now + floor(ttl/1000)*1000`; and when no explicit cacheKey is given, a
second identical call before that expiry returns the first call's (truthy)
payload with zero network calls.  With an explicit cacheKey the read-back
fails, because the TTL store is read at the full URL (see the
counterexample). -/
theorem claim_C3 :
    (∀ (cfg : GetConfig) (st : CabData Nat) (d now : Nat),
        1000 ≤ effectiveCacheTTL cfg.ttl → cfg.disableCache = false →
        (getCachedTruthy st (fullUrlOf cfg) now).1 = none →
        (getOnce cfg st d now).1 = d
        ∧ (getOnce cfg st d now).2.2 = 1
        ∧ jsGet (getOnce cfg st d now).2.1 (cacheKeyOf cfg)
            = some { expires := now + (effectiveCacheTTL cfg.ttl / 1000) * 1000,
                     value := d })
    ∧ (∀ (cfg : GetConfig) (st : CabData Nat) (d1 d2 now1 now2 : Nat),
        cfg.cacheKey = none →
        1000 ≤ effectiveCacheTTL cfg.ttl → cfg.disableCache = false →
        (getCachedTruthy st (fullUrlOf cfg) now1).1 = none →
        d1 ≠ 0 →
        now2 ≤ now1 + (effectiveCacheTTL cfg.ttl / 1000) * 1000 →
        getOnce cfg ((getOnce cfg st d1 now1).2.1) d2 now2
          = (d1, (getOnce cfg st d1 now1).2.1, 0)) := by
  constructor
  · intro cfg st d now h1 h2 h3
    rw [getOnce_miss_stores cfg st d now h1 h2 h3]
    exact ⟨rfl, rfl, jsGet_jsSet_self _ _ _⟩
  · intro cfg st d1 d2 now1 now2 hck h1 h2 h3 hd1 hnow
    have hstore := getOnce_miss_stores cfg st d1 now1 h1 h2 h3
    have hkey : cacheKeyOf cfg = fullUrlOf cfg := by
      unfold cacheKeyOf
      rw [hck]
    have hlook : jsGet ((getOnce cfg st d1 now1).2.1) (fullUrlOf cfg)
        = some { expires := now1 + (effectiveCacheTTL cfg.ttl / 1000) * 1000,
                 value := d1 } := by
      rw [hstore]
      simp only
      rw [← hkey]
      exact jsGet_jsSet_self _ _ _
    have h0 : 0 < effectiveCacheTTL cfg.ttl := lt_of_lt_of_le (by norm_num) h1
    exact getOnce_hit cfg ((getOnce cfg st d1 now1).2.1) d2 now2
      { expires := now1 + (effectiveCacheTTL cfg.ttl / 1000) * 1000, value := d1 }
      h0 h2 hlook (Nat.not_lt.mpr hnow) hd1

/-- C3 counterexample: the claim as stated is false at concrete inputs.
With an explicit cacheKey "k" and ttl 60000 the second identical call still
performs a network call and returns the fresh payload 8 instead of the
cached 7 (the TTL store is read at the full URL but written at the
cacheKey); with the positive ttl 500 the response is not cached at all
(`setCachedValue` drops ttls below 1000 ms); and a falsy cached payload (0)
is also refetched. -/
theorem claim_C3_counterexample :
    (getOnce { url := "https://u/x", queryParams := [],
               ttl := some (TTLValue.num 60000), cacheKey := some "k",
               disableCache := false } [] 7 0).2.2 = 1
    ∧ (getOnce { url := "https://u/x", queryParams := [],
                 ttl := some (TTLValue.num 60000), cacheKey := some "k",
                 disableCache := false }
        ((getOnce { url := "https://u/x", queryParams := [],
                    ttl := some (TTLValue.num 60000), cacheKey := some "k",
                    disableCache := false } [] 7 0).2.1) 8 1000).2.2 = 1
    ∧ (getOnce { url := "https://u/x", queryParams := [],
                 ttl := some (TTLValue.num 60000), cacheKey := some "k",
                 disableCache := false }
        ((getOnce { url := "https://u/x", queryParams := [],
                    ttl := some (TTLValue.num 60000), cacheKey := some "k",
                    disableCache := false } [] 7 0).2.1) 8 1000).1 = 8
    ∧ (getOnce { url := "https://u/x", queryParams := [],
                 ttl := some (TTLValue.num 500), cacheKey := none,
                 disableCache := false }
        ((getOnce { url := "https://u/x", queryParams := [],
                    ttl := some (TTLValue.num 500), cacheKey := none,
                    disableCache := false } [] 7 0).2.1) 8 100).2.2 = 1
    ∧ (getOnce { url := "https://u/x", queryParams := [],
                 ttl := some (TTLValue.num 60000), cacheKey := none,
                 disableCache := false }
        ((getOnce { url := "https://u/x", queryParams := [],
                    ttl := some (TTLValue.num 60000), cacheKey := none,
                    disableCache := false } [] 0 0).2.1) 9 100).2.2 = 1 := by
  refine ⟨rfl, rfl, rfl, rfl, rfl⟩

/-- Witness for C3 at a concrete round trip without an explicit cacheKey. -/
theorem claim_C3_witness :
    getOnce { url := "https://u/x", queryParams := [],
              ttl := some (TTLValue.num 60000), cacheKey := none,
              disableCache := false }
        ((getOnce { url := "https://u/x", queryParams := [],
                    ttl := some (TTLValue.num 60000), cacheKey := none,
                    disableCache := false } [] 7 0).2.1) 9 30000
      = (7, (getOnce { url := "https://u/x", queryParams := [],
                       ttl := some (TTLValue.num 60000), cacheKey := none,
                       disableCache := false } [] 7 0).2.1, 0) :=
  claim_C3.2 { url := "https://u/x", queryParams := [],
               ttl := some (TTLValue.num 60000), cacheKey := none,
               disableCache := false } [] 7 9 0 30000 rfl (by decide) rfl rfl
    (by decide) (by decide)

/-- C4 (amended): `post`, `put` and `form` delete any cached entry stored
under the resolved request URL before issuing the mutating HTTP request
unless `disableCache` is set, in which case the cache is left untouched;
`delete` always deletes the entry before issuing its request. -/
theorem claim_C4 (cfg : MutateConfig) (st : CabData Nat) :
    (cfg.disableCache = false →
        postOp cfg st = (AlCabinet.del st cfg.url,
            [EngineAction.invalidate cfg.url, EngineAction.httpRequest "POST" cfg.url])
        ∧ putOp cfg st = (AlCabinet.del st cfg.url,
            [EngineAction.invalidate cfg.url, EngineAction.httpRequest "PUT" cfg.url])
        ∧ formOp cfg st = (AlCabinet.del st cfg.url,
            [EngineAction.invalidate cfg.url, EngineAction.httpRequest "POST" cfg.url])
        ∧ jsGet (postOp cfg st).1 cfg.url = none
        ∧ jsGet (putOp cfg st).1 cfg.url = none
        ∧ jsGet (formOp cfg st).1 cfg.url = none)
    ∧ (cfg.disableCache = true →
        postOp cfg st = (st, [EngineAction.httpRequest "POST" cfg.url])
        ∧ putOp cfg st = (st, [EngineAction.httpRequest "PUT" cfg.url])
        ∧ formOp cfg st = (st, [EngineAction.httpRequest "POST" cfg.url]))
    ∧ deleteOp cfg st = (AlCabinet.del st cfg.url,
        [EngineAction.invalidate cfg.url, EngineAction.httpRequest "DELETE" cfg.url])
    ∧ jsGet (deleteOp cfg st).1 cfg.url = none := by
  refine ⟨?_, ?_, rfl, cabDel_lookup_none st cfg.url⟩
  · intro h
    simp [postOp, putOp, formOp, h, cabDel_lookup_none]
  · intro h
    simp [postOp, putOp, formOp, h]

/-- C4 counterexample: a `post` with `disableCache` set leaves the cached
entry for its resolved URL in place and performs no invalidation, so
`post()` does not always delete the cached entry before its request. -/
theorem claim_C4_counterexample :
    (postOp { url := "https://u/x", disableCache := true }
        [("https://u/x", ({ expires := 0, value := 7 } : CacheEntry Nat))]).1
      = [("https://u/x", ({ expires := 0, value := 7 } : CacheEntry Nat))]
    ∧ jsGet (postOp { url := "https://u/x", disableCache := true }
        [("https://u/x", ({ expires := 0, value := 7 } : CacheEntry Nat))]).1
        "https://u/x" = some { expires := 0, value := 7 }
    ∧ (postOp { url := "https://u/x", disableCache := true }
        [("https://u/x", ({ expires := 0, value := 7 } : CacheEntry Nat))]).2
      = [EngineAction.httpRequest "POST" "https://u/x"] := by
  refine ⟨rfl, rfl, rfl⟩

/-- Witness for C4 at a concrete cache state. -/
theorem claim_C4_witness :
    postOp { url := "https://u/x", disableCache := false }
        [("https://u/x", ({ expires := 0, value := 7 } : CacheEntry Nat))]
      = (AlCabinet.del [("https://u/x", ({ expires := 0, value := 7 } : CacheEntry Nat))]
            "https://u/x",
         [EngineAction.invalidate "https://u/x",
          EngineAction.httpRequest "POST" "https://u/x"]) :=
  ((claim_C4 { url := "https://u/x", disableCache := false }
      [("https://u/x", ({ expires := 0, value := 7 } : CacheEntry Nat))]).1 rfl).1

/-- C8 (amended): the Matrix's per-logical-id lookup cache is populated only
by getNode calls that use the ambient context (calls with an explicit context
override never modify the matrix), an ambient hit is cached and served to the
next ambient call, and the cache is flushed whenever the ambient context
changes via setContext; however mutating the descriptor set through saveNode
does NOT flush it, so a lookup with no context override keeps returning the
cached result until the context changes, even after the descriptor set has
changed (see the counterexample). -/
theorem claim_C8 :
    (∀ (m : AlLocatorMatrix) (id : String) (c : AlLocationContext),
        (getNode m id (some c)).2 = m)
    ∧ (∀ (m : AlLocatorMatrix) (id : String) (n : AlLocationDescriptor),
        (getNode m id none).1 = some n →
          jsGet (getNode m id none).2.nodes id = some n
          ∧ getNode ((getNode m id none).2) id none
              = (some n, (getNode m id none).2))
    ∧ (∀ (m : AlLocatorMatrix) (ctx : Option AlLocationContext),
        (setContext m ctx).nodes = [])
    ∧ (∀ (m : AlLocatorMatrix) (n : AlLocationDescriptor),
        (saveNode m n).nodes = m.nodes) :=
  ⟨getNode_explicitContext,
   fun m id n h => getNode_ambient_caches m id n h,
   setContext_nodes, saveNode_nodes⟩

/-- C8 counterexample: the claim that the per-id cache is flushed whenever
the descriptor set is mutated is false.  After an ambient lookup caches the
descriptor with uri "https://one" for id "X", `saveNode` of a replacement
descriptor with uri "https://two" updates `_nodeMap`, yet a subsequent
ambient lookup still returns the stale cached descriptor. -/
theorem claim_C8_counterexample :
    (getNode (saveNode (getNode (saveNode initialMatrix
          { locTypeId := "X", environment := none, residency := none,
            locationId := none, uri := "https://one" }) "X" none).2
        { locTypeId := "X", environment := none, residency := none,
          locationId := none, uri := "https://two" }) "X" none).1
      = some { locTypeId := "X", environment := none, residency := none,
               locationId := none, uri := "https://one" }
    ∧ jsGet (saveNode (getNode (saveNode initialMatrix
          { locTypeId := "X", environment := none, residency := none,
            locationId := none, uri := "https://one" }) "X" none).2
        { locTypeId := "X", environment := none, residency := none,
          locationId := none, uri := "https://two" }).nodeMap "X-*-*"
      = some { locTypeId := "X", environment := none, residency := none,
               locationId := none, uri := "https://two" }
    ∧ ({ locTypeId := "X", environment := none, residency := none,
         locationId := none, uri := "https://one" } : AlLocationDescriptor)
        ≠ { locTypeId := "X", environment := none, residency := none,
            locationId := none, uri := "https://two" } := by
  refine ⟨rfl, rfl, by decide⟩

/-- Witness for C8: the ambient lookup on a one-node matrix caches its
result and the second ambient call is served from the cache. -/
theorem claim_C8_witness :
    jsGet (getNode (saveNode initialMatrix
        { locTypeId := "X", environment := none, residency := none,
          locationId := none, uri := "https://one" }) "X" none).2.nodes "X"
      = some { locTypeId := "X", environment := none, residency := none,
               locationId := none, uri := "https://one" } :=
  (claim_C8.2.1 (saveNode initialMatrix
      { locTypeId := "X", environment := none, residency := none,
        locationId := none, uri := "https://one" }) "X"
      { locTypeId := "X", environment := none, residency := none,
        locationId := none, uri := "https://one" } rfl).1

/-- C1: in every reachable engine state, at most one network GET request is
pending per cache key (any two pending requests with the same key are the
same request); a `get` whose check segment runs while the in-flight map holds
an entry for its cache key attaches to that entry's request instead of
issuing a second network call (any step that moves such a ready call leaves
the request list unchanged and puts the call in `awaitingShared`); and two
callers that completed from the same request received the same payload. -/
theorem claim_C1 (s : EngineState) (hreach : EngineReachable s) :
    (∀ r1 ∈ s.requests, ∀ r2 ∈ s.requests,
        r1.status = ReqStatus.pending → r2.status = ReqStatus.pending →
        r1.key = r2.key → r1 = r2)
    ∧ (∀ i c rid, s.calls.get? i = some c → c.phase = GetPhase.ready →
        cacheHit s c = none → jsGet s.inflight c.cacheKey = some rid →
        ∀ s2, EngineStep s s2 → s2.calls.get? i ≠ some c →
          s2.requests = s.requests
          ∧ s2.calls.get? i = some { c with phase := GetPhase.awaitingShared rid })
    ∧ (∀ i j ci cj rid vi vj, s.calls.get? i = some ci → s.calls.get? j = some cj →
        ci.phase = GetPhase.finishedNet rid vi →
        cj.phase = GetPhase.finishedNet rid vj → vi = vj) := by
  have inv := engineReachable_inv hreach
  refine ⟨?_, ?_, ?_⟩
  · intro r1 h1 r2 h2 hp1 hp2 hk
    have e1 := inv.pendingReg r1 h1 hp1
    have e2 := inv.pendingReg r2 h2 hp2
    rw [hk, e2] at e1
    injection e1 with e3
    exact inv.idsUnique r1 h1 r2 h2 e3.symm
  · intro i c rid hc hready hmiss hmap s2 hstep hchanged
    cases hstep with
    | checkCacheHit i2 c2 v hc2 hready2 hhit2 =>
        by_cases hii : i2 = i
        · subst hii
          rw [hc] at hc2
          injection hc2 with he
          subst he
          rw [hmiss] at hhit2
          exact Option.noConfusion hhit2
        · refine absurd ?_ hchanged
          show (setPhase s.calls i2 (GetPhase.finishedCache v)).get? i = some c
          rw [get?_setPhase_ne s.calls i2 i _ (fun h => hii h.symm)]
          exact hc
    | checkAttach i2 c2 r hc2 hready2 hhit2 hmap2 =>
        by_cases hii : i2 = i
        · subst hii
          rw [hc] at hc2
          injection hc2 with he
          subst he
          rw [hmap] at hmap2
          injection hmap2 with hr2
          subst hr2
          constructor
          · rfl
          · show (setPhase s.calls i2 (GetPhase.awaitingShared rid)).get? i2
              = some { c with phase := GetPhase.awaitingShared rid }
            exact get?_setPhase_self s.calls i2 c _ hc
        · refine absurd ?_ hchanged
          show (setPhase s.calls i2 (GetPhase.awaitingShared r)).get? i = some c
          rw [get?_setPhase_ne s.calls i2 i _ (fun h => hii h.symm)]
          exact hc
    | checkRegister i2 c2 hc2 hready2 hhit2 hmap2 =>
        by_cases hii : i2 = i
        · subst hii
          rw [hc] at hc2
          injection hc2 with he
          subst he
          rw [hmap] at hmap2
          exact Option.noConfusion hmap2
        · refine absurd ?_ hchanged
          show (setPhase s.calls i2 (GetPhase.awaitingOwn s.nextReq)).get? i = some c
          rw [get?_setPhase_ne s.calls i2 i _ (fun h => hii h.symm)]
          exact hc
    | netResolve r0 p hmem hpend => exact absurd hc hchanged
    | netFail r0 hmem hpend => exact absurd hc hchanged
    | ownerResolve i2 c2 rid0 p r hc2 hphase2 hfind hst =>
        by_cases hii : i2 = i
        · subst hii
          rw [hc] at hc2
          injection hc2 with he
          subst he
          rw [hready] at hphase2
          simp at hphase2
        · refine absurd ?_ hchanged
          show (setPhase s.calls i2 (GetPhase.finishedNet rid0 p)).get? i = some c
          rw [get?_setPhase_ne s.calls i2 i _ (fun h => hii h.symm)]
          exact hc
    | ownerFail i2 c2 rid0 r hc2 hphase2 hfind hst =>
        by_cases hii : i2 = i
        · subst hii
          rw [hc] at hc2
          injection hc2 with he
          subst he
          rw [hready] at hphase2
          simp at hphase2
        · refine absurd ?_ hchanged
          show (setPhase s.calls i2 (GetPhase.failedNet rid0)).get? i = some c
          rw [get?_setPhase_ne s.calls i2 i _ (fun h => hii h.symm)]
          exact hc
    | sharedResolve i2 c2 rid0 p r hc2 hphase2 hfind hst =>
        by_cases hii : i2 = i
        · subst hii
          rw [hc] at hc2
          injection hc2 with he
          subst he
          rw [hready] at hphase2
          simp at hphase2
        · refine absurd ?_ hchanged
          show (setPhase s.calls i2 (GetPhase.finishedNet rid0 p)).get? i = some c
          rw [get?_setPhase_ne s.calls i2 i _ (fun h => hii h.symm)]
          exact hc
    | sharedFail i2 c2 rid0 r hc2 hphase2 hfind hst =>
        by_cases hii : i2 = i
        · subst hii
          rw [hc] at hc2
          injection hc2 with he
          subst he
          rw [hready] at hphase2
          simp at hphase2
        · refine absurd ?_ hchanged
          show (setPhase s.calls i2 (GetPhase.failedNet rid0)).get? i = some c
          rw [get?_setPhase_ne s.calls i2 i _ (fun h => hii h.symm)]
          exact hc
  · intro i j ci cj rid vi vj hci hcj hpi hpj
    rcases inv.finNet i ci rid vi hci hpi with ⟨r1, hm1, hr1, hs1⟩
    rcases inv.finNet j cj rid vj hcj hpj with ⟨r2, hm2, hr2, hs2⟩
    have he : r1 = r2 := inv.idsUnique r1 hm1 r2 hm2 (by rw [hr1, hr2])
    rw [he, hs2] at hs1
    injection hs1 with hv
    exact hv.symm

/-- Witness for C1: two concurrent identical GETs; after the first registers
request 0, the second's check segment attaches to it without touching the
request list. -/
theorem claim_C1_witness :
    witnessState2.requests = witnessState1.requests
    ∧ witnessState2.calls.get? 1
        = some { witnessCall with phase := GetPhase.awaitingShared 0 } := by
  have hinit : EngineInit witnessState0 := by
    refine ⟨rfl, rfl, rfl, ?_⟩
    intro c hc
    rcases List.mem_cons.mp hc with h | h
    · subst h
      rfl
    · rcases List.mem_cons.mp h with h2 | h2
      · subst h2
        rfl
      · exact absurd h2 (List.not_mem_nil c)
  have step1 : EngineStep witnessState0 witnessState1 := by
    have h := EngineStep.checkRegister witnessState0 0 witnessCall rfl rfl rfl rfl
    exact h
  have reach1 : EngineReachable witnessState1 :=
    EngineReachable.step _ _ (EngineReachable.init _ hinit) step1
  have step2 : EngineStep witnessState1 witnessState2 := by
    have h := EngineStep.checkAttach witnessState1 1 witnessCall 0 rfl rfl rfl rfl
    exact h
  exact (claim_C1 witnessState1 reach1).2.1 1 witnessCall 0 rfl rfl rfl rfl
    witnessState2 step2 (by decide)

/-- Witness for C5: the refinement equation instantiated at the aims example
(service "aims", version "v1", account "2", path "users", discovery host
api.example.com), with every hypothesis discharged concretely. -/
theorem claim_C5_witness :
    calculateRequestURL (endpointsTranslate [("aims", "api.example.com")])
        (fun _ => "https://fallback.example.com")
        { service_stack := some AlLocationInsightAPI, service_name := some "aims",
          version := some (VersionVal.str "v1"), account_id := some "2",
          path := some "users", noEndpointsResolution := false }
      = specRequestURL
          (resolveServiceBaseURL (endpointsTranslate [("aims", "api.example.com")])
            (fun _ => "https://fallback.example.com")
            { service_stack := some AlLocationInsightAPI, service_name := some "aims",
              version := some (VersionVal.str "v1"), account_id := some "2",
              path := some "users", noEndpointsResolution := false })
          "aims" (some (VersionVal.str "v1")) (some "2") (some "users") :=
  claim_C5.1 (endpointsTranslate [("aims", "api.example.com")])
    (fun _ => "https://fallback.example.com")
    { service_stack := some AlLocationInsightAPI, service_name := some "aims",
      version := some (VersionVal.str "v1"), account_id := some "2",
      path := some "users", noEndpointsResolution := false }
    "aims" rfl (by decide) (by decide) (by decide)

/-- C6 (code bug): the per-(environment, accountId) discovery promise is
shared — after the three `prepare` coroutines' first segments a single
discovery request exists and all three await it — but that sharing does not
bound outstanding discovery calls: when the shared response lacks two of the
requested services, each disappointed awaiter independently deletes the
TTL-store entry and re-issues discovery, leaving two discovery requests
outstanding for the same (production, "0") pair at one instant, contrary to
the claimed at-most-one invariant (and to the comment above `prepare`). -/
theorem claim_C6 :
    ((runDiscovery discoveryTraceState0
        [DStep.run 0, DStep.run 1, DStep.run 2]).requests.length = 1
      ∧ (runDiscovery discoveryTraceState0
          [DStep.run 0, DStep.run 1, DStep.run 2]).prepCalls.map (fun c => c.phase)
          = [PrepPhase.awaitFirst 0, PrepPhase.awaitFirst 0, PrepPhase.awaitFirst 0])
    ∧ outstandingFor
        (runDiscovery discoveryTraceState0
          [DStep.run 0, DStep.run 1, DStep.run 2,
           DStep.resolve 0 [("aims", "api.example.com"), ("foo", "foo.example.com")],
           DStep.run 0, DStep.run 1, DStep.run 2])
        "production" "0" = 2 :=
  ⟨⟨rfl, rfl⟩, rfl⟩
